import Mathlib

/-!
# a2wio/lucas dashboard: login gate and data store

A shallow embedding of `dashboard/main.go` (session registry, `authRequired`,
the `/login` handler, the template function `formatNumber`),
`dashboard/db/sqlite.go` (the typed queries over the `runs`, `token_usage` and
`fixes` tables) and `dashboard/handlers/handlers.go` (`readLog`, `Index`,
`APIRuns`).

Conventions of the embedding

* `time.Time` values are integers (nanoseconds on the process clock);
  `time.Now()` is an explicit argument of every function that reads the clock.
* `generateSessionID()` is random: the identifier it returns is an explicit
  argument of `createSession`.
* A Go `string` is a Lean `String`, except for the submitted and configured
  credentials, which are kept as the byte slices that `[]byte(...)` exposes to
  `subtle.ConstantTimeCompare`.
* Go `int` is the 64-bit two's complement integer of the platforms the
  sqlite3 driver is built for; addition wraps (`wrapInt64`).
* A table is the list of its rows in rowid order.  Nullable columns are
  `Option`s.  `datetime('now')` is `datetime` of an explicit engine clock.
  Foreign keys are not enforced (the SQLite default for the connection that
  `New` opens).  A statement fails only for a reason visible in the data: a
  NULL scanned into a Go `int` or `float64`, no row for `QueryRow`, an exhausted
  rowid, a missing table; I/O failures of the engine are outside the model.
* A Go result pair `(value, error)` is an `Except`.
* A handler of package `handlers` is the list of calls it makes on its
  `http.ResponseWriter`; the template engine, `os.ReadFile`, `strconv.Atoi` and
  the engine's floating-point `SUM` are arguments.
-/

namespace Lucas

/-! ## Session registry (`main.go`, lines 25-61) -/

/-- Instants of `time.Time`, in nanoseconds. -/
abbrev Time := Int

/-- A `time.Duration`, in nanoseconds. -/
abbrev Duration := Int

/-- The constant `time.Hour`. -/
def Hour : Duration := 3600 * 1000000000

/-- `sessionTTL = 24 * time.Hour`. -/
def sessionTTL : Duration := 24 * Hour

/-- The package variable `sessions`, a `map[string]time.Time`: a finite map kept
as an association list in which the first binding of a key is the live one. -/
abbrev Sessions := List (String × Time)

/-- Map read `sessions[k]` in its two-result form `(expiry, exists)`. -/
def mapGet (sessions : Sessions) (k : String) : Option Time :=
  sessions.lookup k

/-- Builtin `delete(sessions, k)`. -/
def mapDelete (sessions : Sessions) (k : String) : Sessions :=
  sessions.filter (fun kv => kv.1 != k)

/-- Map write `sessions[k] = v`. -/
def mapSet (sessions : Sessions) (k : String) (v : Time) : Sessions :=
  (k, v) :: mapDelete sessions k

/-- `isValidSession`: `exists && time.Now().Before(expiry)`. -/
def isValidSession (sessions : Sessions) (now : Time) (sessionID : String) : Bool :=
  match mapGet sessions sessionID with
  | some expiry => decide (now < expiry)
  | none => false

/-- `createSession`: stores `time.Now().Add(sessionTTL)` under the identifier that
`generateSessionID()` produced and returns that identifier. -/
def createSession (sessions : Sessions) (now : Time) (sessionID : String) :
    String × Sessions :=
  (sessionID, mapSet sessions sessionID (now + sessionTTL))

/-- `deleteSession`. -/
def deleteSession (sessions : Sessions) (sessionID : String) : Sessions :=
  mapDelete sessions sessionID

/-- One call on the registry that can change the map. -/
inductive RegistryOp where
  | create (now : Time) (sessionID : String)
  | delete (sessionID : String)
  deriving DecidableEq, Repr

/-- The token a registry call writes to. -/
def RegistryOp.token : RegistryOp → String
  | .create _ k => k
  | .delete k => k

/-- Whether the call is a `createSession`. -/
def RegistryOp.isCreate : RegistryOp → Bool
  | .create _ _ => true
  | .delete _ => false

/-- Effect of one registry call on the map. -/
def applyRegistryOp (sessions : Sessions) : RegistryOp → Sessions
  | .create now k => (createSession sessions now k).2
  | .delete k => deleteSession sessions k

/-- Effect of a sequence of registry calls, first call first. -/
def runRegistry (sessions : Sessions) (ops : List RegistryOp) : Sessions :=
  ops.foldl applyRegistryOp sessions

/-- Clock reading of the latest `createSession` that returned `k`: `t` for the
call that precedes `ops`, replaced by each later call in `ops` that returns `k`
again. -/
def lastCreated (k : String) (t : Time) : List RegistryOp → Time
  | [] => t
  | .create t1 k1 :: rest => lastCreated k (if k1 = k then t1 else t) rest
  | .delete _ :: rest => lastCreated k t rest

/-! ## HTTP requests and responses (the part of `net/http` the handlers use) -/

/-- A byte. -/
abbrev Byte := Fin 256

/-- A byte slice. -/
abbrev Bytes := List Byte

/-- The request as the handlers read it: method, cookies in header order, and
form values (first value per key). -/
structure Request where
  Method : String
  cookies : List (String × String)
  form : List (String × Bytes)
  deriving DecidableEq, Repr

/-- Method `r.Cookie(name)`: the first cookie of that name, `none` standing for
`http.ErrNoCookie`. -/
def Request.Cookie (r : Request) (name : String) : Option String :=
  r.cookies.lookup name

/-- Method `r.FormValue(key)`: the first value for the key, the empty string
when there is none. -/
def Request.FormValue (r : Request) (key : String) : Bytes :=
  (r.form.lookup key).getD []

/-- The fields of `http.Cookie` that the handlers set. -/
structure Cookie where
  Name : String
  Value : String
  Path : String
  HttpOnly : Bool
  MaxAge : Int
  deriving DecidableEq, Repr

/-- What a handler wrote as the response body. -/
inductive Body where
  | redirectNote
  | template (name : String) (data : List (String × String))
  deriving DecidableEq, Repr

/-- The response a handler produced: status code, `Location` header,
`Set-Cookie` headers, body. -/
structure Response where
  status : Nat
  location : Option String
  setCookies : List Cookie
  body : Body
  deriving DecidableEq, Repr

/-- The constant `http.StatusFound`. -/
def StatusFound : Nat := 302

/-- The constant `http.StatusOK`, the status of a response whose handler never
calls `WriteHeader`. -/
def StatusOK : Nat := 200

/-- The constant `http.MethodGet`. -/
def MethodGet : String := "GET"

/-- `http.Redirect(w, r, url, code)` on a response that already carries the
given `Set-Cookie` headers. -/
def Redirect (setCookies : List Cookie) (url : String) (code : Nat) : Response :=
  { status := code, location := some url, setCookies := setCookies, body := Body.redirectNote }

/-- `tmpl.ExecuteTemplate(w, name, data)` as the only write to the response. -/
def ExecuteTemplate (name : String) (data : List (String × String)) : Response :=
  { status := StatusOK, location := none, setCookies := [], body := Body.template name data }

/-- A response is a redirect when its status is 3xx and it has a `Location`. -/
def Response.isRedirect (resp : Response) : Bool :=
  decide (300 ≤ resp.status) && decide (resp.status < 400) && resp.location.isSome

/-- An `http.HandlerFunc` acting on the session registry. -/
abbrev HandlerFunc := Request → Sessions → Sessions × Response

/-- `authRequired(next)`; `now` is the clock reading of `isValidSession`. -/
def authRequired (now : Time) (next : HandlerFunc) : HandlerFunc :=
  fun r sessions =>
    match r.Cookie "session" with
    | none => (sessions, Redirect [] "/login" StatusFound)
    | some value =>
      if !isValidSession sessions now value then
        (sessions, Redirect [] "/login" StatusFound)
      else
        next r sessions

/-- `subtle.ConstantTimeByteEq(x, y)`: `int((uint32(x^y) - 1) >> 31)`. -/
def ConstantTimeByteEq (x y : Nat) : Nat :=
  (((x ^^^ y) + 2 ^ 32 - 1) % 2 ^ 32) >>> 31

/-- `subtle.ConstantTimeCompare(x, y)` of the Go standard library: 0 on a length
mismatch, else the bytewise xor of the slices is or-ed into one byte which is
compared with zero. -/
def ConstantTimeCompare (x y : Bytes) : Nat :=
  if x.length ≠ y.length then 0
  else
    ConstantTimeByteEq
      ((List.zip x y).foldl (fun v ab => (v ||| (ab.1.val ^^^ ab.2.val)) % 256) 0) 0

/-- `int(sessionTTL.Seconds())`: whole seconds of the duration. -/
def sessionMaxAge : Int := sessionTTL / 1000000000

/-- The handler registered for `/login` (`main.go`, lines 147-178).  `authUser`
and `authPass` are the configured credentials, `nowCheck` and `nowCreate` the
clock readings of `isValidSession` and `createSession`, `newID` the identifier
`generateSessionID()` yields. -/
def loginHandler (authUser authPass : Bytes) (nowCheck nowCreate : Time) (newID : String) :
    HandlerFunc :=
  fun r sessions =>
    let loggedIn : Bool :=
      match r.Cookie "session" with
      | some value => isValidSession sessions nowCheck value
      | none => false
    if loggedIn then (sessions, Redirect [] "/" StatusFound)
    else if r.Method == MethodGet then (sessions, ExecuteTemplate "login.html" [])
    else
      let username := r.FormValue "username"
      let password := r.FormValue "password"
      if ConstantTimeCompare username authUser == 1 &&
          ConstantTimeCompare password authPass == 1 then
        let created := createSession sessions nowCreate newID
        (created.2,
          Redirect
            [{ Name := "session", Value := created.1, Path := "/", HttpOnly := true,
               MaxAge := sessionMaxAge }]
            "/" StatusFound)
      else
        (sessions, ExecuteTemplate "login.html" [("Error", "Invalid username or password")])

/-! ## Data store (`db/sqlite.go`) -/

/-- Largest value of a Go `int` and of an SQLite INTEGER. -/
def maxInt64 : Int := 2 ^ 63 - 1

/-- Smallest value of a Go `int`. -/
def minInt64 : Int := -(2 ^ 63)

/-- Result of a Go `int` operation whose exact value is `x`: reduced modulo
`2 ^ 64` into the two's complement range. -/
def wrapInt64 (x : Int) : Int := (x + 2 ^ 63) % 2 ^ 64 - 2 ^ 63

/-- A Go `float64`: NaN, or any other value, given by its IEEE-754 bit pattern
(negative zero is `2 ^ 63`). -/
inductive Float64 where
  | nan
  | num (bits : Nat)
  deriving DecidableEq, Repr

/-- Go struct `Run`. -/
structure Run where
  ID : Int
  StartedAt : String
  EndedAt : String
  Namespace : String
  Mode : String
  Status : String
  PodCount : Int
  ErrorCount : Int
  FixCount : Int
  Report : String
  Log : String
  deriving DecidableEq, Repr

/-- Go struct `NamespaceStats`. -/
structure NamespaceStats where
  Namespace : String
  RunCount : Int
  OkCount : Int
  FixedCount : Int
  FailedCount : Int
  deriving DecidableEq, Repr

/-- Go struct `TokenUsage`. -/
structure TokenUsage where
  ID : Int
  RunID : Int
  Namespace : String
  Model : String
  InputTokens : Int
  OutputTokens : Int
  TotalTokens : Int
  Cost : Float64
  CreatedAt : String
  deriving DecidableEq, Repr

/-- Go struct `Fix`. -/
structure Fix where
  ID : Int
  RunID : Int
  Timestamp : String
  Namespace : String
  PodName : String
  ErrorType : String
  ErrorMessage : String
  FixApplied : String
  Status : String
  deriving DecidableEq, Repr

/-- Go struct `CostStats`. -/
structure CostStats where
  TotalInputTokens : Int
  TotalOutputTokens : Int
  TotalTokens : Int
  TotalCost : Float64
  deriving DecidableEq, Repr

/-- A row of table `fixes` (schema in `New`): `run_id`, `error_message`,
`fix_applied` and `status` carry no NOT NULL. -/
structure FixRow where
  id : Int
  run_id : Option Int
  timestamp : String
  namespace_ : String
  pod_name : String
  error_type : String
  error_message : Option String
  fix_applied : Option String
  status : Option String
  deriving DecidableEq, Repr

/-- A row of table `runs` (schema in `New`): columns without NOT NULL are
nullable. -/
structure RunRow where
  id : Int
  started_at : String
  ended_at : Option String
  namespace_ : String
  mode : String
  status : String
  pod_count : Option Int
  error_count : Option Int
  fix_count : Option Int
  report : Option String
  log : Option String
  deriving DecidableEq, Repr

/-- A row of table `token_usage` (schema in `New`). -/
structure TokenUsageRow where
  id : Int
  run_id : Option Int
  namespace_ : String
  model : String
  input_tokens : Option Int
  output_tokens : Option Int
  total_tokens : Option Int
  cost : Option Float64
  created_at : String
  deriving DecidableEq, Repr

/-- A row of table `slack_sessions`, which the external process creates. -/
structure SessionRow where
  thread_ts : String
  session_id : String
  channel : String
  namespace_ : Option String
  created_at : String
  updated_at : String
  deriving DecidableEq, Repr

/-- The database behind `DB.conn`: each table in rowid order, the
`sqlite_sequence` counters of the two AUTOINCREMENT tables the dashboard
inserts into, `slack_sessions`, which exists only once the external process has
created it, and `fixes`, which only the external process writes. -/
structure Store where
  runs : List RunRow
  runsSeq : Int
  token_usage : List TokenUsageRow
  tokenUsageSeq : Int
  slack_sessions : Option (List SessionRow)
  fixes : List FixRow
  deriving DecidableEq, Repr

/-- Errors the modelled operations can return. -/
inductive DBError where
  | scanNull
  | noRows
  | full
  | noSuchTable
  | integerOverflow
  deriving DecidableEq, Repr

deriving instance DecidableEq for Except

/-- The UTC wall clock of the SQL engine. -/
structure Clock where
  year : Nat
  month : Nat
  day : Nat
  hour : Nat
  minute : Nat
  second : Nat
  deriving DecidableEq, Repr

/-- Last decimal digit of `n` as a character. -/
def digit (n : Nat) : Char := Char.ofNat (48 + n % 10)

/-- Two-digit field of a timestamp. -/
def pad2 (n : Nat) : String := String.mk [digit (n / 10), digit n]

/-- Four-digit field of a timestamp. -/
def pad4 (n : Nat) : String :=
  String.mk [digit (n / 1000), digit (n / 100), digit (n / 10), digit n]

/-- SQL `datetime('now')`: the text `YYYY-MM-DD HH:MM:SS`. -/
def datetime (now : Clock) : String :=
  pad4 now.year ++ "-" ++ pad2 now.month ++ "-" ++ pad2 now.day ++ " " ++
    pad2 now.hour ++ ":" ++ pad2 now.minute ++ ":" ++ pad2 now.second

/-- Order of TEXT values under the BINARY collation: lexicographic by code
point. -/
def textLE (a b : String) : Prop := a.data ≤ b.data

/-- Strict order of TEXT values under the BINARY collation. -/
def textLT (a b : String) : Prop := a.data < b.data

instance (a b : String) : Decidable (textLE a b) := by
  unfold textLE
  infer_instance

instance (a b : String) : Decidable (textLT a b) := by
  unfold textLT
  infer_instance

instance textLE_total_desc {α : Type} (key : α → String) :
    IsTotal α (fun a b => textLE (key b) (key a)) :=
  ⟨fun a b => le_total (key b).data (key a).data⟩

instance textLE_trans_desc {α : Type} (key : α → String) :
    IsTrans α (fun a b => textLE (key b) (key a)) :=
  ⟨fun _ _ _ hab hbc => le_trans (α := List Char) hbc hab⟩

instance textLE_total_asc {α : Type} (key : α → String) :
    IsTotal α (fun a b => textLE (key a) (key b)) :=
  ⟨fun a b => le_total (key a).data (key b).data⟩

instance textLE_trans_asc {α : Type} (key : α → String) :
    IsTrans α (fun a b => textLE (key a) (key b)) :=
  ⟨fun _ _ _ hab hbc => le_trans (α := List Char) hab hbc⟩

/-- SQL `ORDER BY key DESC` over rows in scan order; rows with equal keys keep
their scan order. -/
def orderByDesc {α : Type} (key : α → String) (rows : List α) : List α :=
  rows.insertionSort (fun a b => textLE (key b) (key a))

/-- SQL `ORDER BY key` (ascending). -/
def orderByAsc {α : Type} (key : α → String) (rows : List α) : List α :=
  rows.insertionSort (fun a b => textLE (key a) (key b))

/-- SQL `LIMIT ?`: a negative bound puts no cap on the number of rows. -/
def sqlLimit {α : Type} (limit : Int) (rows : List α) : List α :=
  if limit < 0 then rows else rows.take limit.toNat

/-- The rowid AUTOINCREMENT assigns: one more than the largest rowid the table
holds or has ever held. -/
def nextRowid (seq : Int) (ids : List Int) : Int :=
  ids.foldl max seq + 1

/-- `rows.Scan` of one `runs` row selected with
`COALESCE(ended_at, ''), ..., COALESCE(report, ''), COALESCE(log, '')`:
a NULL count cannot be converted to `int`. -/
def scanRun (r : RunRow) : Except DBError Run :=
  match r.pod_count, r.error_count, r.fix_count with
  | some p, some e, some f =>
    .ok { ID := r.id, StartedAt := r.started_at, EndedAt := r.ended_at.getD "",
          Namespace := r.namespace_, Mode := r.mode, Status := r.status,
          PodCount := p, ErrorCount := e, FixCount := f,
          Report := r.report.getD "", Log := r.log.getD "" }
  | _, _, _ => .error DBError.scanNull

/-- The `for rows.Next()` loop of `GetRuns`: the first failing `Scan` ends it
with the error. -/
def scanRuns : List RunRow → Except DBError (List Run)
  | [] => .ok []
  | r :: rest =>
    match scanRun r with
    | .error e => .error e
    | .ok run =>
      match scanRuns rest with
      | .error e => .error e
      | .ok runs => .ok (run :: runs)

/-- `DB.CreateRun`. -/
def CreateRun (db : Store) (now : Clock) (namespace_ mode : String) :
    Except DBError (Int × Store) :=
  let id := nextRowid db.runsSeq (db.runs.map (fun r => r.id))
  if id > maxInt64 then .error DBError.full
  else
    .ok (id,
      { db with
        runs := db.runs ++
          [{ id := id, started_at := datetime now, ended_at := none,
             namespace_ := namespace_, mode := mode, status := "running",
             pod_count := some 0, error_count := some 0, fix_count := some 0,
             report := none, log := none }],
        runsSeq := id })

/-- The assignment list of the UPDATE in `CompleteRun`, applied to one row. -/
def completeRow (now : Clock) (status : String) (podCount errorCount fixCount : Int)
    (report log : String) (r : RunRow) : RunRow :=
  { r with ended_at := some (datetime now), status := status, pod_count := some podCount,
           error_count := some errorCount, fix_count := some fixCount,
           report := some report, log := some log }

/-- `DB.CompleteRun`: `UPDATE runs SET ... WHERE id = ?`; the statement does not
fail, so only the new store is returned. -/
def CompleteRun (db : Store) (now : Clock) (id : Int) (status : String)
    (podCount errorCount fixCount : Int) (report log : String) : Store :=
  { db with
    runs := db.runs.map (fun r =>
      if r.id == id then completeRow now status podCount errorCount fixCount report log r
      else r) }

/-- `DB.GetRuns`. -/
def GetRuns (db : Store) (namespace_ : String) (limit : Int) : Except DBError (List Run) :=
  let selected :=
    if namespace_ != "" then db.runs.filter (fun r => r.namespace_ == namespace_)
    else db.runs
  scanRuns (sqlLimit limit (orderByDesc (fun r => r.started_at) selected))

/-- `DB.GetRun`: `QueryRow(...).Scan(...)`, `sql.ErrNoRows` when no row matches. -/
def GetRun (db : Store) (id : Int) : Except DBError Run :=
  match db.runs.find? (fun r => r.id == id) with
  | none => .error DBError.noRows
  | some r => scanRun r

/-- `SUM(CASE WHEN cond THEN 1 ELSE 0 END)` over the rows of one group. -/
def sumCase (cond : RunRow → Bool) (group : List RunRow) : Int :=
  (group.map (fun r => if cond r then (1 : Int) else 0)).sum

/-- `DB.GetNamespaces`: one row per group of `GROUP BY namespace`, in
`ORDER BY namespace` order. -/
def GetNamespaces (db : Store) : Except DBError (List NamespaceStats) :=
  let groups := orderByAsc id (db.runs.map (fun r => r.namespace_)).dedup
  .ok (groups.map (fun ns =>
    let group := db.runs.filter (fun r => r.namespace_ == ns)
    { Namespace := ns,
      RunCount := (group.length : Int),
      OkCount := sumCase (fun r => r.status == "ok") group,
      FixedCount := sumCase (fun r => r.status == "fixed") group,
      FailedCount := sumCase (fun r => r.status == "failed" || r.status == "issues_found") group }))

/-- `SELECT COUNT(*) FROM runs WHERE namespace = ? AND cond`. -/
def countRuns (db : Store) (namespace_ : String) (cond : RunRow → Bool) : Int :=
  ((db.runs.filter (fun r => r.namespace_ == namespace_ && cond r)).length : Int)

/-- `DB.GetNamespaceStats`: four COUNT queries on the same table. -/
def GetNamespaceStats (db : Store) (namespace_ : String) : Except DBError NamespaceStats :=
  .ok { Namespace := namespace_,
        RunCount := countRuns db namespace_ (fun _ => true),
        OkCount := countRuns db namespace_ (fun r => r.status == "ok"),
        FixedCount := countRuns db namespace_ (fun r => r.status == "fixed"),
        FailedCount :=
          countRuns db namespace_ (fun r => r.status == "failed" || r.status == "issues_found") }

/-- `DB.DeleteSession`: `DELETE FROM slack_sessions WHERE session_id = ?`. -/
def DeleteSession (db : Store) (sessionID : String) : Except DBError Store :=
  match db.slack_sessions with
  | none => .error DBError.noSuchTable
  | some rows =>
    .ok { db with slack_sessions := some (rows.filter (fun s => s.session_id != sessionID)) }

/-- The bit pattern a column of REAL affinity gives back for a stored value:
negative zero (`2 ^ 63`) is written as the integer 0 and read back as positive
zero; every other value comes back bit for bit. -/
def storedBits (bits : Nat) : Nat := if bits = 2 ^ 63 then 0 else bits

/-- What the `cost` column holds after a `float64` parameter is bound to it: NaN
becomes NULL, any other value is held as `storedBits` reads it back. -/
def bindFloat64 : Float64 → Option Float64
  | .nan => none
  | .num bits => some (.num (storedBits bits))

/-- `DB.RecordTokenUsage`; the sixth parameter is the Go expression
`inputTokens+outputTokens`. -/
def RecordTokenUsage (db : Store) (now : Clock) (runID : Int) (namespace_ model : String)
    (inputTokens outputTokens : Int) (cost : Float64) : Except DBError Store :=
  let id := nextRowid db.tokenUsageSeq (db.token_usage.map (fun r => r.id))
  if id > maxInt64 then .error DBError.full
  else
    .ok { db with
          token_usage := db.token_usage ++
            [{ id := id, run_id := some runID, namespace_ := namespace_, model := model,
               input_tokens := some inputTokens, output_tokens := some outputTokens,
               total_tokens := some (wrapInt64 (inputTokens + outputTokens)),
               cost := bindFloat64 cost, created_at := datetime now }],
          tokenUsageSeq := id }

/-- `rows.Scan` of one `token_usage` row selected with `COALESCE(run_id, 0)`. -/
def scanTokenUsage (r : TokenUsageRow) : Except DBError TokenUsage :=
  match r.input_tokens, r.output_tokens, r.total_tokens, r.cost with
  | some i, some o, some t, some c =>
    .ok { ID := r.id, RunID := r.run_id.getD 0, Namespace := r.namespace_, Model := r.model,
          InputTokens := i, OutputTokens := o, TotalTokens := t, Cost := c,
          CreatedAt := r.created_at }
  | _, _, _, _ => .error DBError.scanNull

/-- The `for rows.Next()` loop of `GetTokenUsage`. -/
def scanTokenUsages : List TokenUsageRow → Except DBError (List TokenUsage)
  | [] => .ok []
  | r :: rest =>
    match scanTokenUsage r with
    | .error e => .error e
    | .ok u =>
      match scanTokenUsages rest with
      | .error e => .error e
      | .ok us => .ok (u :: us)

/-- `DB.GetTokenUsage`. -/
def GetTokenUsage (db : Store) (limit : Int) : Except DBError (List TokenUsage) :=
  scanTokenUsages (sqlLimit limit (orderByDesc (fun r => r.created_at) db.token_usage))

/-- One write operation of the data store. -/
inductive StoreOp where
  | createRun (now : Clock) (namespace_ mode : String)
  | completeRun (now : Clock) (id : Int) (status : String)
      (podCount errorCount fixCount : Int) (report log : String)
  | recordTokenUsage (now : Clock) (runID : Int) (namespace_ model : String)
      (inputTokens outputTokens : Int) (cost : Float64)
  | deleteSession (sessionID : String)
  deriving DecidableEq, Repr

/-- Effect of one write operation; an operation that returns an error leaves the
store as it was. -/
def applyStoreOp (db : Store) : StoreOp → Store
  | .createRun now ns mode =>
    match CreateRun db now ns mode with
    | .ok res => res.2
    | .error _ => db
  | .completeRun now id status p e f report log => CompleteRun db now id status p e f report log
  | .recordTokenUsage now runID ns model i o cost =>
    match RecordTokenUsage db now runID ns model i o cost with
    | .ok db1 => db1
    | .error _ => db
  | .deleteSession sid =>
    match DeleteSession db sid with
    | .ok db1 => db1
    | .error _ => db

/-- Effect of a sequence of write operations, first operation first. -/
def runStore (db : Store) (ops : List StoreOp) : Store :=
  ops.foldl applyStoreOp db

/-- Whether the operation is a `CompleteRun` on the given run. -/
def StoreOp.completes (id : Int) : StoreOp → Bool
  | .completeRun _ id1 _ _ _ _ _ _ => id1 == id
  | _ => false

/-- Whether the operation is a `RecordTokenUsage` whose cost is NaN. -/
def StoreOp.recordsNaN : StoreOp → Bool
  | .recordTokenUsage _ _ _ _ _ _ cost => cost == Float64.nan
  | _ => false

/-- The database right after `New` on a fresh file. -/
def emptyStore : Store :=
  { runs := [], runsSeq := 0, token_usage := [], tokenUsageSeq := 0, slack_sessions := none,
    fixes := [] }

/-- A table of three runs in two namespaces, used in the concrete instances. -/
def sampleRuns : Store :=
  { runs := [{ id := 1, started_at := "2025-01-01 00:00:00", ended_at := none,
               namespace_ := "prod", mode := "autonomous", status := "running",
               pod_count := some 0, error_count := some 0, fix_count := some 0,
               report := none, log := none },
             { id := 2, started_at := "2025-01-02 00:00:00", ended_at := none,
               namespace_ := "dev", mode := "autonomous", status := "running",
               pod_count := some 0, error_count := some 0, fix_count := some 0,
               report := none, log := none },
             { id := 3, started_at := "2025-01-03 00:00:00", ended_at := none,
               namespace_ := "prod", mode := "autonomous", status := "running",
               pod_count := some 0, error_count := some 0, fix_count := some 0,
               report := none, log := none }],
    runsSeq := 3, token_usage := [], tokenUsageSeq := 0, slack_sessions := none,
    fixes := [] }

/-- The usage row that recording 100 input and 50 output tokens at second 0 on
the empty table reads back as, used in the concrete instances. -/
def sampleUsage : TokenUsage :=
  { ID := 1, RunID := 1, Namespace := "prod", Model := "model", InputTokens := 100,
    OutputTokens := 50, TotalTokens := 150, Cost := Float64.num 0,
    CreatedAt := "2025-01-01 00:00:00" }

/-- An engine clock reading used in the concrete instances: the given second of
2025-01-01 00:00. -/
def clockAt (second : Nat) : Clock :=
  { year := 2025, month := 1, day := 1, hour := 0, minute := 0, second := second }

/-! ## Data store: cost statistics and fixes (`db/sqlite.go`) -/

/-- `rows.Scan` of one `fixes` row selected with `COALESCE(run_id, 0)`,
`COALESCE(error_message, '')`, `COALESCE(fix_applied, '')`: a NULL `status`
cannot be converted to `string`. -/
def scanFix (r : FixRow) : Except DBError Fix :=
  match r.status with
  | some st =>
    .ok { ID := r.id, RunID := r.run_id.getD 0, Timestamp := r.timestamp,
          Namespace := r.namespace_, PodName := r.pod_name, ErrorType := r.error_type,
          ErrorMessage := r.error_message.getD "", FixApplied := r.fix_applied.getD "",
          Status := st }
  | none => .error DBError.scanNull

/-- The `for rows.Next()` loop of `GetFixes` and `GetFixesByRun`. -/
def scanFixes : List FixRow → Except DBError (List Fix)
  | [] => .ok []
  | r :: rest =>
    match scanFix r with
    | .error e => .error e
    | .ok f =>
      match scanFixes rest with
      | .error e => .error e
      | .ok fs => .ok (f :: fs)

/-- `DB.GetFixes`. -/
def GetFixes (db : Store) (limit : Int) : Except DBError (List Fix) :=
  scanFixes (sqlLimit limit (orderByDesc (fun r => r.timestamp) db.fixes))

/-- `DB.GetFixesByRun`: `WHERE run_id = ?` is not satisfied by a NULL `run_id`. -/
def GetFixesByRun (db : Store) (runID : Int) : Except DBError (List Fix) :=
  scanFixes (orderByDesc (fun r => r.timestamp)
    (db.fixes.filter (fun r => r.run_id == some runID)))

/-- A `fixes` table with one legacy row (no `run_id`, no message) and one row of
run 7, used in the concrete instances. -/
def sampleFixes : Store :=
  { runs := [], runsSeq := 0, token_usage := [], tokenUsageSeq := 0, slack_sessions := none,
    fixes := [{ id := 1, run_id := none, timestamp := "2024-12-31 00:00:00",
                namespace_ := "prod", pod_name := "api-0", error_type := "CrashLoopBackOff",
                error_message := none, fix_applied := none, status := some "success" },
              { id := 2, run_id := some 7, timestamp := "2025-01-01 00:00:00",
                namespace_ := "prod", pod_name := "api-1", error_type := "OOMKilled",
                error_message := some "out of memory", fix_applied := none,
                status := some "pending" }] }

/-! ## Request handlers (`handlers/handlers.go`) and `formatNumber` (`main.go`) -/

/-- `strings.Split(s, "\n")` of the Go standard library on the characters of `s`:
the segments between newlines, one more than there are newlines. -/
def splitNewline : List Char → List (List Char)
  | [] => [[]]
  | c :: cs =>
    if c = '\n' then [] :: splitNewline cs
    else
      match splitNewline cs with
      | [] => [[c]]
      | seg :: rest => (c :: seg) :: rest

/-- `strings.Join(lines, "\n")` of the Go standard library. -/
def joinNewline : List (List Char) → List Char
  | [] => []
  | [l] => l
  | l :: rest => l ++ '\n' :: joinNewline rest

/-- `Handler.readLog`; `file` is what `os.ReadFile(h.logPath)` returns, `none`
standing for an error. -/
def readLog (file : Option String) : String :=
  match file with
  | none => "No lucas log available yet. Waiting for first run..."
  | some data =>
    let lines := splitNewline data.data
    let lines := if lines.length > 200 then lines.drop (lines.length - 200) else lines
    String.mk (joinNewline lines)

/-- Go struct `Session` of package `db`. -/
structure Session where
  ThreadTS : String
  SessionID : String
  Channel : String
  Namespace : String
  CreatedAt : String
  UpdatedAt : String
  deriving DecidableEq, Repr

/-- Go struct `Runbook`. -/
structure Runbook where
  Name : String
  Filename : String
  Description : String
  Triggers : List String
  deriving DecidableEq, Repr

/-- Go struct `PageData`; a nil pointer is `none`, a nil slice is `[]`. -/
structure PageData where
  Page : String
  Namespaces : List NamespaceStats
  CurrentNS : String
  Runs : List Run
  SelectedRun : Option Run
  SelectedFixes : List Fix
  Stats : Option NamespaceStats
  Log : String
  Sessions : List Session
  TokenUsage : List TokenUsage
  CostStats : Option CostStats
  Runbooks : List Runbook
  deriving DecidableEq, Repr

/-- The data-store calls of `Handler.Index` and `Handler.APIRuns` as the handler
sees them: each call returns its value or an error, kept as the text of
`err.Error()`. -/
structure StoreView where
  GetNamespaces : Except String (List NamespaceStats)
  GetRuns : String → Int → Except String (List Run)
  GetRun : Int → Except String Run
  GetFixesByRun : Int → Except String (List Fix)
  GetNamespaceStats : String → Except String NamespaceStats

/-- Go struct `Handler`: `db` is the data store behind `h.db`, `tmpl` gives the
error `h.tmpl.ExecuteTemplate` returns for a template name and data (`none` for
nil), `logFile` is what `os.ReadFile(h.logPath)` returns. -/
structure Handler where
  db : StoreView
  tmpl : String → PageData → Option String
  logFile : Option String

/-- One call of a handler on its `http.ResponseWriter`, in program order. -/
inductive Write where
  | executeTemplate (name : String) (data : PageData)
  | httpError (text : String) (code : Nat)
  | setHeader (key value : String)
  | encodeRuns (runs : List Run)
  deriving DecidableEq, Repr

/-- The constant `http.StatusInternalServerError`. -/
def StatusInternalServerError : Nat := 500

/-- The slice a Go call `xs, _ := f()` leaves in `xs`: nil when `f` failed. -/
def sliceOrNil {α : Type} (res : Except String (List α)) : List α :=
  match res with
  | .ok xs => xs
  | .error _ => []

/-- The pointer a Go call `p, _ := f()` leaves in `p`: nil when `f` failed. -/
def pointerOrNil {α : Type} (res : Except String α) : Option α :=
  match res with
  | .ok x => some x
  | .error _ => none

/-- The namespace the page handlers work with (lines 69-72 of `Index`): the
requested one, or the first namespace of `GetNamespaces` when none is requested
and there is one. -/
def effectiveNamespace (namespaces : List NamespaceStats) (ns : String) : String :=
  if ns == "" && decide (namespaces.length > 0) then
    match namespaces with
    | first :: _ => first.Namespace
    | [] => ns
  else ns

/-- `Handler.Index` (lines 63-113).  `ns` and `run` are the query parameters
`r.URL.Query().Get("ns")` and `Get("run")`; `Atoi` is the value `strconv.Atoi`
returns, whose error the handler drops. -/
def Index (h : Handler) (Atoi : String → Int) (ns run : String) : List Write :=
  let namespaces := sliceOrNil h.db.GetNamespaces
  let namespace_ := effectiveNamespace namespaces ns
  let runs := sliceOrNil (h.db.GetRuns namespace_ 50)
  let selected : Option Run × List Fix :=
    if run != "" then
      match pointerOrNil (h.db.GetRun (Atoi run)) with
      | some selectedRun => (some selectedRun, sliceOrNil (h.db.GetFixesByRun (Atoi run)))
      | none => (none, [])
    else
      match runs with
      | first :: _ =>
        match pointerOrNil (h.db.GetRun first.ID) with
        | some selectedRun => (some selectedRun, sliceOrNil (h.db.GetFixesByRun first.ID))
        | none => (none, [])
      | [] => (none, [])
  let stats : Option NamespaceStats :=
    if namespace_ != "" then pointerOrNil (h.db.GetNamespaceStats namespace_) else none
  let data : PageData :=
    { Page := "overview", Namespaces := namespaces, CurrentNS := namespace_, Runs := runs,
      SelectedRun := selected.1, SelectedFixes := selected.2, Stats := stats,
      Log := readLog h.logFile, Sessions := [], TokenUsage := [], CostStats := none,
      Runbooks := [] }
  match h.tmpl "index.html" data with
  | none => [Write.executeTemplate "index.html" data]
  | some err =>
    [Write.executeTemplate "index.html" data, Write.httpError err StatusInternalServerError]

/-- `Handler.APIRuns` (lines 267-276); `ns` is `r.URL.Query().Get("ns")`. -/
def APIRuns (h : Handler) (ns : String) : List Write :=
  match h.db.GetRuns ns 100 with
  | .error err => [Write.httpError err StatusInternalServerError]
  | .ok runs => [Write.setHeader "Content-Type" "application/json", Write.encodeRuns runs]

/-- The view of a concrete store that a handler gets through `h.db`; `errText`
is the text `err.Error()` gives for each error. -/
def Store.view (errText : DBError → String) (db : Store) : StoreView :=
  { GetNamespaces := (GetNamespaces db).mapError errText,
    GetRuns := fun ns limit => (GetRuns db ns limit).mapError errText,
    GetRun := fun id => (GetRun db id).mapError errText,
    GetFixesByRun := fun id => (GetFixesByRun db id).mapError errText,
    GetNamespaceStats := fun ns => (GetNamespaceStats db ns).mapError errText }

/-- A `runs` table whose only row has a NULL `pod_count`, as an external writer
can leave it, used in the concrete instances: `GetRuns` fails on it. -/
def brokenRuns : Store :=
  { runs := [{ id := 1, started_at := "2025-01-01 00:00:00", ended_at := none,
               namespace_ := "prod", mode := "autonomous", status := "running",
               pod_count := none, error_count := some 0, fix_count := some 0,
               report := none, log := none }],
    runsSeq := 1, token_usage := [], tokenUsageSeq := 0, slack_sessions := none,
    fixes := [] }

/-- `fmt.Sprintf("%d", n)`: the decimal digits of `n`, with a leading minus sign
when `n` is negative. -/
def sprintfD (n : Int) : List Char := (toString n).data

/-- The loop body of `formatNumber` at index `i` with character `c`. -/
def formatStep (len : Nat) (result : List Char) (ic : Nat × Char) : List Char :=
  if ic.1 > 0 ∧ (len - ic.1) % 3 = 0 then result ++ [',', ic.2] else result ++ [ic.2]

/-- The template function `formatNumber` (`main.go`, lines 116-130). -/
def formatNumber (n : Int) : String :=
  let str := sprintfD n
  if str.length ≤ 3 then String.mk str
  else String.mk (str.enum.foldl (formatStep str.length) [])

/-- The separators the specification asks for, written from its words: going
through the decimal representation with `left` the character just passed, a
comma is put at each position that has a digit on its left and a positive
multiple of three digits on its right, and nowhere else. -/
def commaGroupedFrom (left : Option Char) : List Char → List Char
  | [] => []
  | c :: rest =>
    let digitOnLeft : Bool :=
      match left with
      | some l => l.isDigit
      | none => false
    let digitsOnRight := ((c :: rest).filter Char.isDigit).length
    if digitOnLeft = true ∧ 0 < digitsOnRight ∧ digitsOnRight % 3 = 0 then
      ',' :: c :: commaGroupedFrom (some c) rest
    else c :: commaGroupedFrom (some c) rest

/-- The comma-separated form of a decimal representation as the specification
describes it. -/
def commaGrouped (str : List Char) : List Char := commaGroupedFrom none str

/-! ## Session registry: lemmas -/

theorem mapGet_mapDelete_self (sessions : Sessions) (k : String) :
    mapGet (mapDelete sessions k) k = none := by
  induction sessions with
  | nil => rfl
  | cons kv rest ih =>
    obtain ⟨a, b⟩ := kv
    by_cases h : a = k
    · subst h
      simpa [mapDelete, mapGet, List.filter_cons] using ih
    · have hk : (k == a) = false := by simpa using fun e : k = a => h e.symm
      simpa [mapDelete, mapGet, List.filter_cons, h, List.lookup_cons, hk] using ih

theorem mapGet_mapDelete_ne (sessions : Sessions) {k j : String} (h : j ≠ k) :
    mapGet (mapDelete sessions j) k = mapGet sessions k := by
  induction sessions with
  | nil => rfl
  | cons kv rest ih =>
    obtain ⟨a, b⟩ := kv
    by_cases ha : a = j
    · subst ha
      have hk : (k == a) = false := by simpa using fun e : k = a => h e.symm
      simpa [mapDelete, mapGet, List.filter_cons, List.lookup_cons, hk] using ih
    · by_cases hk : k = a
      · subst hk
        simp [mapDelete, mapGet, List.filter_cons, ha, List.lookup_cons]
      · have hk' : (k == a) = false := by simpa using hk
        simpa [mapDelete, mapGet, List.filter_cons, ha, List.lookup_cons, hk'] using ih

theorem mapGet_mapSet_self (sessions : Sessions) (k : String) (v : Time) :
    mapGet (mapSet sessions k v) k = some v := by
  simp [mapSet, mapGet, List.lookup_cons]

theorem mapGet_mapSet_ne (sessions : Sessions) {k j : String} (v : Time) (h : j ≠ k) :
    mapGet (mapSet sessions j v) k = mapGet sessions k := by
  have hk : (k == j) = false := by simpa using fun e : k = j => h e.symm
  have := mapGet_mapDelete_ne sessions h
  simpa [mapSet, mapGet, List.lookup_cons, hk] using this

theorem mapGet_applyRegistryOp_ne (sessions : Sessions) (op : RegistryOp) {k : String}
    (h : op.token ≠ k) : mapGet (applyRegistryOp sessions op) k = mapGet sessions k := by
  cases op with
  | create now j => exact mapGet_mapSet_ne sessions _ h
  | delete j => exact mapGet_mapDelete_ne sessions h

theorem mapGet_runRegistry_ne (ops : List RegistryOp) (sessions : Sessions) {k : String}
    (h : ∀ op ∈ ops, op.token ≠ k) :
    mapGet (runRegistry sessions ops) k = mapGet sessions k := by
  induction ops generalizing sessions with
  | nil => rfl
  | cons op rest ih =>
    have h1 : op.token ≠ k := h op (List.mem_cons_self _ _)
    have h2 : ∀ o ∈ rest, o.token ≠ k := fun o ho => h o (List.mem_cons_of_mem _ ho)
    show mapGet (runRegistry (applyRegistryOp sessions op) rest) k = _
    rw [ih _ h2, mapGet_applyRegistryOp_ne sessions op h1]

theorem mapGet_runRegistry_none (ops : List RegistryOp) (sessions : Sessions) {k : String}
    (h : ∀ op ∈ ops, op.isCreate = true → op.token ≠ k) (h0 : mapGet sessions k = none) :
    mapGet (runRegistry sessions ops) k = none := by
  induction ops generalizing sessions with
  | nil => exact h0
  | cons op rest ih =>
    have h2 : ∀ o ∈ rest, o.isCreate = true → o.token ≠ k :=
      fun o ho => h o (List.mem_cons_of_mem _ ho)
    show mapGet (runRegistry (applyRegistryOp sessions op) rest) k = none
    apply ih _ h2
    cases op with
    | create now j =>
      have hj : j ≠ k := h _ (List.mem_cons_self _ _) rfl
      exact (mapGet_mapSet_ne sessions _ hj).trans h0
    | delete j =>
      by_cases hj : j = k
      · subst hj
        exact mapGet_mapDelete_self sessions j
      · exact (mapGet_mapDelete_ne sessions hj).trans h0

theorem isValidSession_iff (sessions : Sessions) (now : Time) (k : String) :
    isValidSession sessions now k = true ↔ ∃ expiry, mapGet sessions k = some expiry ∧ now < expiry := by
  unfold isValidSession
  cases h : mapGet sessions k with
  | none => simp
  | some e => simp

theorem mapGet_runRegistry_created (ops : List RegistryOp) (sessions : Sessions) (k : String)
    (t : Time) (hops : ∀ op ∈ ops, op ≠ RegistryOp.delete k)
    (h0 : mapGet sessions k = some (t + sessionTTL)) :
    mapGet (runRegistry sessions ops) k = some (lastCreated k t ops + sessionTTL) := by
  induction ops generalizing sessions t with
  | nil => exact h0
  | cons op rest ih =>
    have h2 : ∀ o ∈ rest, o ≠ RegistryOp.delete k :=
      fun o ho => hops o (List.mem_cons_of_mem _ ho)
    show mapGet (runRegistry (applyRegistryOp sessions op) rest) k = _
    cases op with
    | create t1 k1 =>
      by_cases hk : k1 = k
      · subst hk
        simp only [lastCreated, if_true]
        exact ih _ _ h2 (mapGet_mapSet_self sessions k1 _)
      · simp only [lastCreated, if_neg hk]
        exact ih _ _ h2 ((mapGet_mapSet_ne sessions _ hk).trans h0)
    | delete k1 =>
      have hk : k1 ≠ k := fun e => hops _ (List.mem_cons_self _ _) (by rw [e])
      simp only [lastCreated]
      exact ih _ _ h2 ((mapGet_mapDelete_ne sessions hk).trans h0)

theorem lastCreated_eq (ops : List RegistryOp) (k : String) (t : Time)
    (hops : ∀ op ∈ ops, op.isCreate = true → op.token ≠ k) : lastCreated k t ops = t := by
  induction ops with
  | nil => rfl
  | cons op rest ih =>
    have h2 : ∀ o ∈ rest, o.isCreate = true → o.token ≠ k :=
      fun o ho => hops o (List.mem_cons_of_mem _ ho)
    cases op with
    | create t1 k1 =>
      have hk : k1 ≠ k := hops _ (List.mem_cons_self _ _) rfl
      simp only [lastCreated, if_neg hk]
      exact ih h2
    | delete k1 =>
      simp only [lastCreated]
      exact ih h2

/-! ## Session registry: the lifecycle of a login session -/

/-- C1. Login-session lifecycle with an explicit clock.  (a) In every registry
state, `isValidSession k` at time `now` is true exactly when `k` is in the map
and `now` is strictly before its stored expiry.  (b) `createSession` at time `t`
returns the generated token `k`; afterwards, through any registry calls with no
`deleteSession(k)` among them, `isValidSession k` at time `t1` is true exactly
when `t1` is strictly before the creation time plus 24 hours
(86 400 000 000 000 ns), the creation time being `t` unless a later
`createSession` returned `k` again, which restarts the 24 hours from its own
clock reading.  (c) After `deleteSession k`, through any later calls that do not
create `k` again, `isValidSession k` is false at every time. -/
theorem session_lifecycle (sessions : Sessions) (k : String) :
    (∀ now : Time, isValidSession sessions now k = true ↔
        ∃ expiry, mapGet sessions k = some expiry ∧ now < expiry) ∧
    (∀ (t t1 : Time) (ops : List RegistryOp), (∀ op ∈ ops, op ≠ RegistryOp.delete k) →
        (createSession sessions t k).1 = k ∧
        (isValidSession (runRegistry (createSession sessions t k).2 ops) t1 k = true ↔
          t1 < lastCreated k t ops + 86400000000000) ∧
        ((∀ op ∈ ops, op.isCreate = true → op.token ≠ k) → lastCreated k t ops = t)) ∧
    (∀ (t1 : Time) (ops : List RegistryOp),
        (∀ op ∈ ops, op.isCreate = true → op.token ≠ k) →
        isValidSession (runRegistry (deleteSession sessions k) ops) t1 k = false) := by
  refine ⟨fun now => isValidSession_iff sessions now k, ?_, ?_⟩
  · intro t t1 ops hops
    refine ⟨rfl, ?_, lastCreated_eq ops k t⟩
    have hget : mapGet (runRegistry (createSession sessions t k).2 ops) k =
        some (lastCreated k t ops + sessionTTL) :=
      mapGet_runRegistry_created ops _ k t hops (mapGet_mapSet_self sessions k _)
    rw [isValidSession_iff, hget]
    simp only [sessionTTL, Hour]
    constructor
    · rintro ⟨e, he, hlt⟩
      cases he
      linarith
    · intro hlt
      exact ⟨_, rfl, by linarith⟩
  · intro t1 ops hops
    have h := mapGet_runRegistry_none ops (deleteSession sessions k) hops
      (mapGet_mapDelete_self sessions k)
    simp [isValidSession, h]

/-- C1 at a concrete registry: token `abc` is created at time 5 over an expired
entry while another token comes and goes, and is checked one nanosecond before
its expiry; and after its deletion it is invalid. -/
theorem session_lifecycle_witness :
    isValidSession
        (runRegistry (createSession [("abc", 3)] 5 "abc").2
          [RegistryOp.create 7 "other", RegistryOp.delete "other"])
        86400000000004 "abc" = true ∧
    isValidSession
        (runRegistry (deleteSession [("abc", 3)] "abc") [RegistryOp.delete "abc"]) 0 "abc" = false :=
  ⟨((session_lifecycle [("abc", 3)] "abc").2.1 5 86400000000004
      [RegistryOp.create 7 "other", RegistryOp.delete "other"] (by decide)).2.1.2 (by decide),
   (session_lifecycle [("abc", 3)] "abc").2.2 0 [RegistryOp.delete "abc"] (by decide)⟩

/-! ## Login gate: lemmas -/

theorem nat_lor_eq_zero (a b : Nat) : a ||| b = 0 ↔ a = 0 ∧ b = 0 := by
  constructor
  · intro h
    constructor
    · apply Nat.eq_of_testBit_eq
      intro i
      have hi := congrArg (fun n => n.testBit i) h
      simp at hi
      simp [hi.1]
    · apply Nat.eq_of_testBit_eq
      intro i
      have hi := congrArg (fun n => n.testBit i) h
      simp at hi
      simp [hi.2]
  · rintro ⟨rfl, rfl⟩
    rfl

theorem ConstantTimeByteEq_zero (v : Nat) (h : v < 256) :
    ConstantTimeByteEq v 0 = 1 ↔ v = 0 := by
  unfold ConstantTimeByteEq
  rw [Nat.xor_zero, Nat.shiftRight_eq_div_pow]
  norm_num
  omega

theorem ctFold_spec (x y : Bytes) (v : Nat) (hlen : x.length = y.length) (hv : v < 256) :
    (List.zip x y).foldl (fun v ab => (v ||| (ab.1.val ^^^ ab.2.val)) % 256) v < 256 ∧
    ((List.zip x y).foldl (fun v ab => (v ||| (ab.1.val ^^^ ab.2.val)) % 256) v = 0 ↔
      v = 0 ∧ x = y) := by
  induction x generalizing y v with
  | nil =>
    cases y with
    | nil => simpa using hv
    | cons b ys => simp at hlen
  | cons a xs ih =>
    cases y with
    | nil => simp at hlen
    | cons b ys =>
      have hl : xs.length = ys.length := by simpa using hlen
      have hx : a.val ^^^ b.val < 2 ^ 8 := Nat.xor_lt_two_pow a.isLt b.isLt
      have ho : v ||| (a.val ^^^ b.val) < 2 ^ 8 := Nat.or_lt_two_pow hv hx
      have hmod : (v ||| (a.val ^^^ b.val)) % 256 = v ||| (a.val ^^^ b.val) :=
        Nat.mod_eq_of_lt ho
      have h := ih ys ((v ||| (a.val ^^^ b.val)) % 256) hl (by rw [hmod]; exact ho)
      simp only [List.zip_cons_cons, List.foldl_cons]
      refine ⟨h.1, h.2.trans ?_⟩
      rw [hmod, nat_lor_eq_zero, Nat.xor_eq_zero, Fin.val_inj]
      constructor
      · rintro ⟨⟨hv0, hab⟩, hxy⟩
        exact ⟨hv0, by rw [hab, hxy]⟩
      · rintro ⟨hv0, hxy⟩
        injection hxy with h1 h2
        exact ⟨⟨hv0, h1⟩, h2⟩

theorem ConstantTimeCompare_eq_one (x y : Bytes) : ConstantTimeCompare x y = 1 ↔ x = y := by
  unfold ConstantTimeCompare
  by_cases hlen : x.length = y.length
  · have h := ctFold_spec x y 0 hlen (by decide)
    rw [if_neg (by simpa using hlen), ConstantTimeByteEq_zero _ h.1, h.2]
    simp
  · rw [if_pos hlen]
    constructor
    · intro h
      cases h
    · intro h
      exact absurd (congrArg List.length h) hlen

theorem loginHandler_post (authUser authPass : Bytes) (nowCheck nowCreate : Time)
    (newID : String) (r : Request) (sessions : Sessions)
    (hm : r.Method ≠ "GET")
    (hv : ¬ ∃ value, r.Cookie "session" = some value ∧
        isValidSession sessions nowCheck value = true) :
    loginHandler authUser authPass nowCheck nowCreate newID r sessions =
      if r.FormValue "username" = authUser ∧ r.FormValue "password" = authPass then
        ((createSession sessions nowCreate newID).2,
          Redirect
            [{ Name := "session", Value := (createSession sessions nowCreate newID).1,
               Path := "/", HttpOnly := true, MaxAge := sessionMaxAge }]
            "/" StatusFound)
      else
        (sessions, ExecuteTemplate "login.html" [("Error", "Invalid username or password")]) := by
  have hlogged : (match r.Cookie "session" with
      | some value => isValidSession sessions nowCheck value
      | none => false) = false := by
    cases hc : r.Cookie "session" with
    | none => rfl
    | some value =>
      cases hval : isValidSession sessions nowCheck value with
      | false => simp [hval]
      | true => exact absurd ⟨value, hc, hval⟩ hv
  have hget : (r.Method == MethodGet) = false := by
    simpa [MethodGet] using hm
  unfold loginHandler
  simp only [hlogged, hget, Bool.false_eq_true, if_false]
  by_cases hcred : r.FormValue "username" = authUser ∧ r.FormValue "password" = authPass
  · have h1 := (ConstantTimeCompare_eq_one _ _).2 hcred.1
    have h2 := (ConstantTimeCompare_eq_one _ _).2 hcred.2
    rw [if_pos hcred]
    simp only [h1, h2, beq_self_eq_true, Bool.and_self, if_true]
  · rw [if_neg hcred]
    have hne : ¬ (ConstantTimeCompare (r.FormValue "username") authUser = 1 ∧
        ConstantTimeCompare (r.FormValue "password") authPass = 1) := by
      rw [ConstantTimeCompare_eq_one, ConstantTimeCompare_eq_one]
      exact hcred
    have hb : (ConstantTimeCompare (r.FormValue "username") authUser == 1 &&
        ConstantTimeCompare (r.FormValue "password") authPass == 1) = false := by
      simpa using hne
    simp only [hb, Bool.false_eq_true, if_false]

/-! ## Login gate: the `/login` handler and `authRequired` -/

/-- C2. For every non-GET request to `/login` that carries no valid session
cookie: if the submitted username and password equal the configured ones byte
for byte, the handler stores a new login session (the generated token, expiring
24 hours after the clock reading), sets exactly one cookie (name `session`, value
the new token, path `/`, HttpOnly, Max-Age 86400) and redirects with 302 to `/`;
in every other case the registry is returned unchanged and no cookie is set; so
a cookie is set if and only if both credentials match. -/
theorem login_creates_session_iff (authUser authPass : Bytes) (nowCheck nowCreate : Time)
    (newID : String) (r : Request) (sessions : Sessions)
    (hm : r.Method ≠ "GET")
    (hv : ¬ ∃ value, r.Cookie "session" = some value ∧
        isValidSession sessions nowCheck value = true) :
    (r.FormValue "username" = authUser ∧ r.FormValue "password" = authPass →
      loginHandler authUser authPass nowCheck nowCreate newID r sessions =
        ((createSession sessions nowCreate newID).2,
          { status := 302, location := some "/",
            setCookies := [{ Name := "session", Value := newID, Path := "/",
                             HttpOnly := true, MaxAge := 86400 }],
            body := Body.redirectNote }) ∧
      mapGet (loginHandler authUser authPass nowCheck nowCreate newID r sessions).1 newID =
        some (nowCreate + 86400000000000)) ∧
    (¬ (r.FormValue "username" = authUser ∧ r.FormValue "password" = authPass) →
      (loginHandler authUser authPass nowCheck nowCreate newID r sessions).1 = sessions ∧
      (loginHandler authUser authPass nowCheck nowCreate newID r sessions).2.setCookies = []) ∧
    ((loginHandler authUser authPass nowCheck nowCreate newID r sessions).2.setCookies ≠ [] ↔
      (r.FormValue "username" = authUser ∧ r.FormValue "password" = authPass)) := by
  rw [loginHandler_post authUser authPass nowCheck nowCreate newID r sessions hm hv]
  refine ⟨?_, ?_, ?_⟩
  · intro hcred
    rw [if_pos hcred]
    refine ⟨?_, ?_⟩
    · simp [createSession, Redirect, StatusFound, sessionMaxAge, sessionTTL, Hour]
    · simp only [createSession, mapGet_mapSet_self, sessionTTL, Hour]
      norm_num
  · intro hcred
    rw [if_neg hcred]
    exact ⟨rfl, rfl⟩
  · by_cases hcred : r.FormValue "username" = authUser ∧ r.FormValue "password" = authPass
    · rw [if_pos hcred]
      simp [Redirect, hcred]
    · rw [if_neg hcred]
      simp [ExecuteTemplate, hcred]

/-- C2 at a concrete request: a POST with the configured credentials `a`/`b` and
no cookie, on an empty registry. -/
theorem login_creates_session_iff_witness :
    loginHandler [97] [98] 10 11 "tok"
        { Method := "POST", cookies := [], form := [("username", [97]), ("password", [98])] } [] =
      ((createSession [] 11 "tok").2,
        { status := 302, location := some "/",
          setCookies := [{ Name := "session", Value := "tok", Path := "/",
                           HttpOnly := true, MaxAge := 86400 }],
          body := Body.redirectNote }) :=
  ((login_creates_session_iff [97] [98] 10 11 "tok"
      { Method := "POST", cookies := [], form := [("username", [97]), ("password", [98])] } []
      (by decide) (by decide)).1 (by decide)).1

/-- C3. For every request and every wrapped handler `next`: when the request's
`session` cookie is a valid login session, `authRequired(next)` does exactly what
`next` does on that request; in every other case (no cookie, unknown token,
expired token) the outcome is the same whatever handler is wrapped, the registry
is untouched and the response is a 302 redirect to `/login` (so not a 401). -/
theorem authRequired_gate (now : Time) (next : HandlerFunc) (r : Request)
    (sessions : Sessions) :
    ((∃ value, r.Cookie "session" = some value ∧ isValidSession sessions now value = true) →
      authRequired now next r sessions = next r sessions) ∧
    ((¬ ∃ value, r.Cookie "session" = some value ∧ isValidSession sessions now value = true) →
      (∀ other : HandlerFunc,
        authRequired now other r sessions =
          (sessions, { status := 302, location := some "/login", setCookies := [],
                       body := Body.redirectNote })) ∧
      (authRequired now next r sessions).2.status ≠ 401) := by
  constructor
  · rintro ⟨value, hc, hval⟩
    simp [authRequired, hc, hval]
  · intro hno
    have key : ∀ other : HandlerFunc,
        authRequired now other r sessions =
          (sessions, { status := 302, location := some "/login", setCookies := [],
                       body := Body.redirectNote }) := by
      intro other
      unfold authRequired
      cases hc : r.Cookie "session" with
      | none => rfl
      | some value =>
        cases hval : isValidSession sessions now value with
        | false => simp [hval, Redirect, StatusFound]
        | true => exact absurd ⟨value, hc, hval⟩ hno
    refine ⟨key, ?_⟩
    rw [key next]
    simp

/-- C3 at concrete requests: a live token reaches the wrapped handler, an expired
one is redirected. -/
theorem authRequired_gate_witness :
    authRequired 5 (fun _ s => (s, ExecuteTemplate "index.html" []))
        { Method := "GET", cookies := [("session", "tok")], form := [] } [("tok", 9)] =
      ([("tok", 9)], ExecuteTemplate "index.html" []) ∧
    (authRequired 9 (fun _ s => (s, ExecuteTemplate "index.html" []))
        { Method := "GET", cookies := [("session", "tok")], form := [] } [("tok", 9)]).2.status
      ≠ 401 :=
  ⟨(authRequired_gate 5 (fun _ s => (s, ExecuteTemplate "index.html" []))
      { Method := "GET", cookies := [("session", "tok")], form := [] } [("tok", 9)]).1
      ⟨"tok", by decide, by decide⟩,
   ((authRequired_gate 9 (fun _ s => (s, ExecuteTemplate "index.html" []))
      { Method := "GET", cookies := [("session", "tok")], form := [] } [("tok", 9)]).2
      (by decide)).2⟩

/-- C4, as stated, fails: a POST with the right username and a wrong password is
answered with status 200 and no `Location` header, which is not a redirect. -/
theorem login_failure_not_redirect :
    (loginHandler [97] [98] 10 11 "tok"
        { Method := "POST", cookies := [],
          form := [("username", [97]), ("password", [99])] } []).2.isRedirect = false ∧
    (loginHandler [97] [98] 10 11 "tok"
        { Method := "POST", cookies := [],
          form := [("username", [97]), ("password", [99])] } []).2.status = 200 := by
  decide

/-- C4, amended. For every login POST (non-GET request without a valid session
cookie) whose credentials fail to match, the handler leaves the registry as it
was and answers with the login page: status 200, no `Location`, no cookie, the
template `login.html` rendered with the single message
`Invalid username or password`.  The outcome is this one value whether only the
username, only the password or both are wrong. -/
theorem login_failure_uniform (authUser authPass : Bytes) (nowCheck nowCreate : Time)
    (newID : String) (r : Request) (sessions : Sessions)
    (hm : r.Method ≠ "GET")
    (hv : ¬ ∃ value, r.Cookie "session" = some value ∧
        isValidSession sessions nowCheck value = true)
    (hfail : ¬ (r.FormValue "username" = authUser ∧ r.FormValue "password" = authPass)) :
    loginHandler authUser authPass nowCheck nowCreate newID r sessions =
      (sessions,
        { status := 200, location := none, setCookies := [],
          body := Body.template "login.html" [("Error", "Invalid username or password")] }) := by
  rw [loginHandler_post authUser authPass nowCheck nowCreate newID r sessions hm hv,
    if_neg hfail]
  rfl

/-- C4 amended, at a concrete request with a wrong username and the right
password. -/
theorem login_failure_uniform_witness :
    loginHandler [97] [98] 10 11 "tok"
        { Method := "POST", cookies := [],
          form := [("username", [100]), ("password", [98])] } [] =
      ([],
        { status := 200, location := none, setCookies := [],
          body := Body.template "login.html" [("Error", "Invalid username or password")] }) :=
  login_failure_uniform [97] [98] 10 11 "tok"
    { Method := "POST", cookies := [], form := [("username", [100]), ("password", [98])] } []
    (by decide) (by decide) (by decide)

/-! ## Data store: lemmas on the SQL building blocks -/

theorem orderByDesc_sorted {α : Type} (key : α → String) (rows : List α) :
    (orderByDesc key rows).Pairwise (fun a b => textLE (key b) (key a)) :=
  List.sorted_insertionSort (fun a b => textLE (key b) (key a)) rows

theorem orderByDesc_perm {α : Type} (key : α → String) (rows : List α) :
    (orderByDesc key rows).Perm rows :=
  List.perm_insertionSort _ rows

theorem orderByAsc_perm {α : Type} (key : α → String) (rows : List α) :
    (orderByAsc key rows).Perm rows :=
  List.perm_insertionSort _ rows

theorem sqlLimit_sublist {α : Type} (limit : Int) (rows : List α) :
    (sqlLimit limit rows).Sublist rows := by
  unfold sqlLimit
  split
  · exact List.Sublist.refl _
  · exact List.take_sublist _ _

theorem sqlLimit_length_le {α : Type} (limit : Int) (rows : List α) (h : 0 ≤ limit) :
    ((sqlLimit limit rows).length : Int) ≤ limit := by
  unfold sqlLimit
  rw [if_neg (by omega)]
  have h1 : (List.take limit.toNat rows).length ≤ limit.toNat := by
    rw [List.length_take]
    exact Nat.min_le_left _ _
  omega

theorem sqlLimit_neg {α : Type} (limit : Int) (rows : List α) (h : limit < 0) :
    sqlLimit limit rows = rows := by
  unfold sqlLimit
  rw [if_pos h]

theorem scanRun_ok {r : RunRow} {run : Run} (h : scanRun r = .ok run) :
    run.ID = r.id ∧ run.StartedAt = r.started_at ∧ run.Namespace = r.namespace_ ∧
    run.Mode = r.mode ∧ run.Status = r.status ∧ run.EndedAt = r.ended_at.getD "" ∧
    r.pod_count = some run.PodCount ∧ r.error_count = some run.ErrorCount ∧
    r.fix_count = some run.FixCount ∧ run.Report = r.report.getD "" ∧
    run.Log = r.log.getD "" := by
  unfold scanRun at h
  split at h
  · next p e f hp he hf =>
    injection h with h
    subst h
    simp [hp, he, hf]
  · cases h

theorem scanRuns_ok {rows : List RunRow} {runs : List Run} (h : scanRuns rows = .ok runs) :
    List.Forall₂ (fun row run => scanRun row = .ok run) rows runs := by
  induction rows generalizing runs with
  | nil =>
    simp only [scanRuns] at h
    injection h with h
    subst h
    exact List.Forall₂.nil
  | cons r rest ih =>
    simp only [scanRuns] at h
    cases h1 : scanRun r with
    | error e => simp [h1] at h
    | ok run =>
      cases h2 : scanRuns rest with
      | error e => simp [h1, h2] at h
      | ok rs =>
        simp only [h1, h2] at h
        injection h with h
        subst h
        exact List.Forall₂.cons h1 (ih h2)

theorem forall₂_scan_map {rows : List RunRow} {runs : List Run}
    (h : List.Forall₂ (fun row run => scanRun row = .ok run) rows runs) :
    runs.map (fun r => r.StartedAt) = rows.map (fun r => r.started_at) ∧
    runs.map (fun r => r.Namespace) = rows.map (fun r => r.namespace_) := by
  induction h with
  | nil => exact ⟨rfl, rfl⟩
  | cons hab _ ih =>
    have hf := scanRun_ok hab
    simp [List.map_cons, hf.2.1, hf.2.2.1, ih.1, ih.2]

theorem scanRuns_succeeds (rows : List RunRow)
    (h : ∀ r ∈ rows, r.pod_count ≠ none ∧ r.error_count ≠ none ∧ r.fix_count ≠ none) :
    ∃ runs, scanRuns rows = .ok runs := by
  induction rows with
  | nil => exact ⟨[], rfl⟩
  | cons r rest ih =>
    obtain ⟨runs, hruns⟩ := ih (fun row hrow => h row (List.mem_cons_of_mem _ hrow))
    obtain ⟨hp, he, hf⟩ := h r (List.mem_cons_self _ _)
    obtain ⟨p, hp1⟩ := Option.ne_none_iff_exists'.1 hp
    obtain ⟨e, he1⟩ := Option.ne_none_iff_exists'.1 he
    obtain ⟨f, hf1⟩ := Option.ne_none_iff_exists'.1 hf
    simp [scanRuns, scanRun, hp1, he1, hf1, hruns]

theorem selected_namespace (db : Store) (ns : String) (hns : ns ≠ "") :
    ∀ r ∈ (if ns != "" then db.runs.filter (fun r => r.namespace_ == ns) else db.runs),
      r.namespace_ = ns := by
  intro r hr
  have hne : (ns != "") = true := by simpa using hns
  rw [if_pos hne] at hr
  simpa using (List.mem_filter.1 hr).2

/-! ## `GetRuns` -/

/-- C5, as stated, fails for a negative limit: on the table of three runs,
`GetRuns("", -1)` returns all three rows, where the claim allows at most minus
one. -/
theorem GetRuns_negative_limit_uncapped :
    (GetRuns sampleRuns "" (-1)).toOption.map
      (fun rows => (rows.length, decide ((rows.length : Int) ≤ -1))) = some (3, false) := by
  decide

/-- C5, amended. Whenever `GetRuns(ns, limit)` returns rows: for `limit ≥ 0`
there are at most `limit` of them (for a negative `limit` SQLite applies no cap
and every selected row is returned); when `ns` is non-empty every returned row
has `Namespace = ns`; and the rows are in descending order of `started_at`.
It does return rows when no run has a NULL count. -/
theorem GetRuns_capped_filtered_sorted (db : Store) (ns : String) (limit : Int) :
    (∀ rows, GetRuns db ns limit = .ok rows →
      (0 ≤ limit → (rows.length : Int) ≤ limit) ∧
      (limit < 0 → rows.length =
        (if ns != "" then db.runs.filter (fun r => r.namespace_ == ns) else db.runs).length) ∧
      (ns ≠ "" → ∀ r ∈ rows, r.Namespace = ns) ∧
      rows.Pairwise (fun a b => textLE b.StartedAt a.StartedAt)) ∧
    ((∀ r ∈ db.runs, r.pod_count ≠ none ∧ r.error_count ≠ none ∧ r.fix_count ≠ none) →
      ∃ rows, GetRuns db ns limit = .ok rows) := by
  constructor
  · intro rows h
    unfold GetRuns at h
    have hf := scanRuns_ok h
    have hlen := hf.length_eq
    have hmap := forall₂_scan_map hf
    refine ⟨?_, ?_, ?_, ?_⟩
    · intro h0
      rw [← hlen]
      exact sqlLimit_length_le _ _ h0
    · intro hneg
      rw [← hlen, sqlLimit_neg _ _ hneg]
      exact (orderByDesc_perm _ _).length_eq
    · intro hns r hr
      have hmem : r.Namespace ∈ rows.map (fun r => r.Namespace) := List.mem_map_of_mem _ hr
      rw [hmap.2] at hmem
      obtain ⟨row, hrow, hrn⟩ := List.mem_map.1 hmem
      have hrow1 := (sqlLimit_sublist _ _).subset hrow
      have hrow2 := (orderByDesc_perm _ _).subset hrow1
      rw [← hrn]
      exact selected_namespace db ns hns row hrow2
    · have hs := (orderByDesc_sorted (fun r : RunRow => r.started_at)
        (if ns != "" then db.runs.filter (fun r => r.namespace_ == ns) else db.runs)).sublist
        (sqlLimit_sublist limit _)
      have hp : (rows.map (fun r => r.StartedAt)).Pairwise (fun a b => textLE b a) := by
        rw [hmap.1]
        exact List.pairwise_map.2 hs
      exact List.pairwise_map.1 hp
  · intro hnn
    unfold GetRuns
    apply scanRuns_succeeds
    intro row hrow
    have h1 := (orderByDesc_perm _ _).subset ((sqlLimit_sublist _ _).subset hrow)
    apply hnn
    split at h1
    · exact (List.mem_filter.1 h1).1
    · exact h1

/-- C5 amended, on the table of three runs, namespace `prod`, limit 1: the one
row returned is the latest `prod` run. -/
theorem GetRuns_capped_filtered_sorted_witness :
    GetRuns sampleRuns "prod" 1 =
      .ok [{ ID := 3, StartedAt := "2025-01-03 00:00:00", EndedAt := "", Namespace := "prod",
             Mode := "autonomous", Status := "running", PodCount := 0, ErrorCount := 0,
             FixCount := 0, Report := "", Log := "" }] ∧
    (([{ ID := 3, StartedAt := "2025-01-03 00:00:00", EndedAt := "", Namespace := "prod",
         Mode := "autonomous", Status := "running", PodCount := 0, ErrorCount := 0,
         FixCount := 0, Report := "", Log := "" }] : List Run).length : Int) ≤ 1 :=
  ⟨by decide,
   ((GetRuns_capped_filtered_sorted sampleRuns "prod" 1).1
      [{ ID := 3, StartedAt := "2025-01-03 00:00:00", EndedAt := "", Namespace := "prod",
         Mode := "autonomous", Status := "running", PodCount := 0, ErrorCount := 0,
         FixCount := 0, Report := "", Log := "" }]
      (by decide)).1 (by decide)⟩

/-! ## `CreateRun`, `CompleteRun`, `GetRun` -/

theorem datetime_ne_empty (now : Clock) : datetime now ≠ "" := by
  intro h
  have hl := congrArg String.length h
  simp [datetime, String.length_append, pad4, pad2, String.length] at hl

theorem find?_map_id (rows : List RunRow) (id : Int) (g : RunRow → RunRow)
    (hg : ∀ r, (g r).id = r.id) :
    (rows.map g).find? (fun r => r.id == id) = (rows.find? (fun r => r.id == id)).map g := by
  induction rows with
  | nil => rfl
  | cons r rest ih =>
    simp only [List.map_cons, List.find?_cons, hg]
    cases h : (r.id == id) with
    | true => rfl
    | false => exact ih

theorem find?_of_mem_id (rows : List RunRow) (id : Int) (h : ∃ r ∈ rows, r.id = id) :
    ∃ row, rows.find? (fun r => r.id == id) = some row ∧ row.id = id := by
  cases hf : rows.find? (fun r => r.id == id) with
  | none =>
    obtain ⟨r, hr, hid⟩ := h
    have := List.find?_eq_none.1 hf r hr
    simp [hid] at this
  | some row =>
    have := List.find?_some hf
    exact ⟨row, rfl, by simpa using this⟩

theorem completeRow_id (now : Clock) (s : String) (p e f : Int) (report log : String)
    (id : Int) (r : RunRow) :
    (if r.id == id then completeRow now s p e f report log r else r).id = r.id := by
  split <;> rfl

theorem GetRun_CompleteRun (db : Store) (now : Clock) (id : Int) (s : String) (p e f : Int)
    (report log : String) (row : RunRow)
    (hrow : db.runs.find? (fun r => r.id == id) = some row) :
    GetRun (CompleteRun db now id s p e f report log) id =
      .ok { ID := id, StartedAt := row.started_at, EndedAt := datetime now,
            Namespace := row.namespace_, Mode := row.mode, Status := s,
            PodCount := p, ErrorCount := e, FixCount := f, Report := report, Log := log } := by
  have hid : row.id = id := by simpa using List.find?_some hrow
  unfold GetRun CompleteRun
  simp only []
  rw [find?_map_id _ _ _ (completeRow_id now s p e f report log id), hrow]
  simp [hid, scanRun, completeRow]

/-- C6. For every store that contains a run with identifier `id` and all
arguments: after `CompleteRun(id, s, p, e, f, report, log)`, `GetRun(id)` succeeds
and returns `Status = s`, `PodCount = p`, `ErrorCount = e`, `FixCount = f`,
`Report = report`, `Log = log` and a non-empty `EndedAt` (the engine's
`datetime('now')`), while `ID`, `StartedAt`, `Namespace` and `Mode` are those of
the stored run, and equal what `GetRun(id)` returned before whenever it returned
a run. -/
theorem CompleteRun_then_GetRun (db : Store) (now : Clock) (id : Int) (s : String)
    (p e f : Int) (report log : String) (h : ∃ r ∈ db.runs, r.id = id) :
    ∃ run row, GetRun (CompleteRun db now id s p e f report log) id = .ok run ∧
      run.Status = s ∧ run.PodCount = p ∧ run.ErrorCount = e ∧ run.FixCount = f ∧
      run.Report = report ∧ run.Log = log ∧ run.EndedAt ≠ "" ∧
      db.runs.find? (fun r => r.id == id) = some row ∧
      run.ID = id ∧ run.ID = row.id ∧ run.StartedAt = row.started_at ∧
      run.Namespace = row.namespace_ ∧ run.Mode = row.mode ∧
      (∀ before, GetRun db id = .ok before →
        run.ID = before.ID ∧ run.StartedAt = before.StartedAt ∧
        run.Namespace = before.Namespace ∧ run.Mode = before.Mode) := by
  obtain ⟨row, hrow, hid⟩ := find?_of_mem_id db.runs id h
  refine ⟨_, row, GetRun_CompleteRun db now id s p e f report log row hrow, rfl, rfl, rfl, rfl,
    rfl, rfl, datetime_ne_empty now, hrow, rfl, hid.symm, rfl, rfl, rfl, ?_⟩
  intro before hb
  unfold GetRun at hb
  rw [hrow] at hb
  have hf := scanRun_ok hb
  exact ⟨by rw [hf.1, hid], hf.2.1.symm, hf.2.2.1.symm, hf.2.2.2.1.symm⟩

/-- C6 at the spec's values: run 1 of the sample table is completed with status
`ok` and counts 3, 1, 2. -/
theorem CompleteRun_then_GetRun_witness :
    ∃ run row,
      GetRun (CompleteRun sampleRuns (clockAt 5) 1 "ok" 3 1 2 "report" "log") 1 = .ok run ∧
      run.Status = "ok" ∧ run.PodCount = 3 ∧ run.ErrorCount = 1 ∧ run.FixCount = 2 ∧
      run.Report = "report" ∧ run.Log = "log" ∧ run.EndedAt ≠ "" ∧
      sampleRuns.runs.find? (fun r => r.id == 1) = some row ∧
      run.ID = 1 ∧ run.ID = row.id ∧ run.StartedAt = row.started_at ∧
      run.Namespace = row.namespace_ ∧ run.Mode = row.mode ∧
      (∀ before, GetRun sampleRuns 1 = .ok before →
        run.ID = before.ID ∧ run.StartedAt = before.StartedAt ∧
        run.Namespace = before.Namespace ∧ run.Mode = before.Mode) :=
  CompleteRun_then_GetRun sampleRuns (clockAt 5) 1 "ok" 3 1 2 "report" "log"
    ⟨_, List.mem_cons_self _ _, rfl⟩

theorem foldl_max_ge_init (ids : List Int) (seq : Int) : seq ≤ ids.foldl max seq := by
  induction ids generalizing seq with
  | nil => exact le_refl _
  | cons a rest ih => exact le_trans (le_max_left seq a) (ih (max seq a))

theorem foldl_max_ge_mem (ids : List Int) (seq : Int) : ∀ a ∈ ids, a ≤ ids.foldl max seq := by
  induction ids generalizing seq with
  | nil => intro a ha; cases ha
  | cons b rest ih =>
    intro a ha
    rcases List.mem_cons.1 ha with rfl | hmem
    · exact le_trans (le_max_right seq a) (foldl_max_ge_init rest (max seq a))
    · exact ih (max seq b) a hmem

theorem nextRowid_fresh (seq : Int) (rows : List RunRow) :
    ∀ r ∈ rows, r.id ≠ nextRowid seq (rows.map (fun r => r.id)) := by
  intro r hr
  have h := foldl_max_ge_mem (rows.map (fun r => r.id)) seq r.id (List.mem_map_of_mem _ hr)
  unfold nextRowid
  omega

theorem CreateRun_ok {db : Store} {now : Clock} {ns mode : String} {id : Int} {db1 : Store}
    (h : CreateRun db now ns mode = .ok (id, db1)) :
    id = nextRowid db.runsSeq (db.runs.map (fun r => r.id)) ∧
    db1.runs = db.runs ++
      [{ id := id, started_at := datetime now, ended_at := none, namespace_ := ns,
         mode := mode, status := "running", pod_count := some 0, error_count := some 0,
         fix_count := some 0, report := none, log := none }] := by
  unfold CreateRun at h
  simp only [] at h
  split at h
  · cases h
  · injection h with h
    injection h with h1 h2
    subst h2
    exact ⟨h1.symm, by rw [h1]⟩

theorem GetRun_after_CreateRun {db : Store} {now : Clock} {ns mode : String} {id : Int}
    {db1 : Store} (h : CreateRun db now ns mode = .ok (id, db1)) :
    GetRun db1 id =
      .ok { ID := id, StartedAt := datetime now, EndedAt := "", Namespace := ns, Mode := mode,
            Status := "running", PodCount := 0, ErrorCount := 0, FixCount := 0,
            Report := "", Log := "" } := by
  obtain ⟨hid, hruns⟩ := CreateRun_ok h
  have hnone : db.runs.find? (fun r => r.id == id) = none := by
    rw [List.find?_eq_none]
    intro r hr
    have := nextRowid_fresh db.runsSeq db.runs r hr
    rw [← hid] at this
    simpa using this
  unfold GetRun
  rw [hruns, List.find?_append, hnone]
  simp [scanRun]

theorem RecordTokenUsage_ok {db : Store} {now : Clock} {runID : Int} {ns model : String}
    {i o : Int} {cost : Float64} {db1 : Store}
    (h : RecordTokenUsage db now runID ns model i o cost = .ok db1) :
    db1.runs = db.runs ∧
    db1.token_usage = db.token_usage ++
      [{ id := nextRowid db.tokenUsageSeq (db.token_usage.map (fun r => r.id)),
         run_id := some runID, namespace_ := ns, model := model,
         input_tokens := some i, output_tokens := some o,
         total_tokens := some (wrapInt64 (i + o)), cost := bindFloat64 cost,
         created_at := datetime now }] := by
  unfold RecordTokenUsage at h
  simp only [] at h
  split at h
  · cases h
  · injection h with h
    subst h
    exact ⟨rfl, rfl⟩

theorem DeleteSession_ok {db : Store} {sid : String} {db1 : Store}
    (h : DeleteSession db sid = .ok db1) :
    db1.runs = db.runs ∧ db1.token_usage = db.token_usage := by
  unfold DeleteSession at h
  split at h
  · cases h
  · injection h with h
    subst h
    exact ⟨rfl, rfl⟩

theorem applyStoreOp_runs (db : Store) (op : StoreOp) :
    (applyStoreOp db op).runs = db.runs ∨
    (∃ row, (applyStoreOp db op).runs = db.runs ++ [row]) ∨
    (∃ now id s p e f report log, op = StoreOp.completeRun now id s p e f report log ∧
      (applyStoreOp db op).runs = db.runs.map (fun r =>
        if r.id == id then completeRow now s p e f report log r else r)) := by
  cases op with
  | createRun now ns mode =>
    simp only [applyStoreOp]
    cases hc : CreateRun db now ns mode with
    | error e => exact Or.inl rfl
    | ok res =>
      obtain ⟨id1, db1⟩ := res
      exact Or.inr (Or.inl ⟨_, (CreateRun_ok hc).2⟩)
  | completeRun now id1 s p e f report log =>
    exact Or.inr (Or.inr ⟨now, id1, s, p, e, f, report, log, rfl, rfl⟩)
  | recordTokenUsage now runID ns model i o cost =>
    simp only [applyStoreOp]
    cases hc : RecordTokenUsage db now runID ns model i o cost with
    | error e => exact Or.inl rfl
    | ok db1 => exact Or.inl (RecordTokenUsage_ok hc).1
  | deleteSession sid =>
    simp only [applyStoreOp]
    cases hc : DeleteSession db sid with
    | error e => exact Or.inl rfl
    | ok db1 => exact Or.inl (DeleteSession_ok hc).1

theorem applyStoreOp_hasRun (db : Store) (op : StoreOp) (id : Int)
    (h : ∃ r ∈ db.runs, r.id = id) : ∃ r ∈ (applyStoreOp db op).runs, r.id = id := by
  obtain ⟨r, hr, hid⟩ := h
  rcases applyStoreOp_runs db op with h1 | ⟨row, h1⟩ | ⟨now, id1, s, p, e, f, report, log, _, h1⟩
  · exact ⟨r, by rw [h1]; exact hr, hid⟩
  · exact ⟨r, by rw [h1]; exact List.mem_append_left _ hr, hid⟩
  · refine ⟨_, by rw [h1]; exact List.mem_map_of_mem _ hr, ?_⟩
    rw [completeRow_id]
    exact hid

theorem runStore_hasRun (ops : List StoreOp) (db : Store) (id : Int)
    (h : ∃ r ∈ db.runs, r.id = id) : ∃ r ∈ (runStore db ops).runs, r.id = id := by
  induction ops generalizing db with
  | nil => exact h
  | cons op rest ih => exact ih _ (applyStoreOp_hasRun db op id h)

theorem applyStoreOp_find? (db : Store) (op : StoreOp) (id : Int) (row : RunRow)
    (hop : op.completes id = false)
    (h : db.runs.find? (fun r => r.id == id) = some row) :
    (applyStoreOp db op).runs.find? (fun r => r.id == id) = some row := by
  rcases applyStoreOp_runs db op with h1 | ⟨new, h1⟩ | ⟨now, id1, s, p, e, f, report, log, hop1, h1⟩
  · rw [h1]
    exact h
  · rw [h1, List.find?_append, h]
    rfl
  · subst hop1
    have hne : (id1 == id) = false := hop
    have hid : row.id = id := by simpa using List.find?_some h
    have hne1 : id1 ≠ id := by simpa using hne
    have hrow : (row.id == id1) = false := by
      rw [hid]
      simpa using fun e : id = id1 => hne1 e.symm
    rw [h1, find?_map_id _ _ _ (completeRow_id now s p e f report log id1), h]
    show some (if (row.id == id1) = true then _ else row) = some row
    rw [hrow]
    rfl

theorem runStore_find? (ops : List StoreOp) (db : Store) (id : Int) (row : RunRow)
    (hops : ∀ op ∈ ops, op.completes id = false)
    (h : db.runs.find? (fun r => r.id == id) = some row) :
    (runStore db ops).runs.find? (fun r => r.id == id) = some row := by
  induction ops generalizing db with
  | nil => exact h
  | cons op rest ih =>
    exact ih _ (fun o ho => hops o (List.mem_cons_of_mem _ ho))
      (applyStoreOp_find? db op id row (hops op (List.mem_cons_self _ _)) h)

/-- C7, as stated, fails: a run is created (id 1) and completed with counts
3, 1, 2; a second `CompleteRun` on the same id with counts 9, 9, 9 changes what
`GetRun` returns for it. -/
theorem counts_overwritten_by_second_CompleteRun :
    (CreateRun emptyStore (clockAt 0) "prod" "autonomous").toOption.map (fun res => res.1) =
      some 1 ∧
    (GetRun (runStore emptyStore
        [StoreOp.createRun (clockAt 0) "prod" "autonomous",
         StoreOp.completeRun (clockAt 1) 1 "ok" 3 1 2 "report" "log"]) 1).toOption.map
      (fun r => (r.PodCount, r.ErrorCount, r.FixCount)) = some (3, 1, 2) ∧
    (GetRun (runStore emptyStore
        [StoreOp.createRun (clockAt 0) "prod" "autonomous",
         StoreOp.completeRun (clockAt 1) 1 "ok" 3 1 2 "report" "log",
         StoreOp.completeRun (clockAt 2) 1 "failed" 9 9 9 "" ""]) 1).toOption.map
      (fun r => (r.PodCount, r.ErrorCount, r.FixCount)) = some (9, 9, 9) := by
  decide

/-- C7, amended. A run created by `CreateRun` reads back with status `running`
and zero counts; once it has been completed by `CompleteRun` (after any
operations in between), no later sequence of data-store operations that contains
no further `CompleteRun` on that run's id (`CreateRun`, `CompleteRun` on other
ids, `RecordTokenUsage`, `DeleteSession`) changes the `PodCount`, `ErrorCount` or
`FixCount` that `GetRun` returns for it: `GetRun` succeeds with the counts of
that completion. -/
theorem counts_fixed_until_recompleted (db0 : Store) (now0 : Clock) (ns mode : String)
    (id : Int) (db1 : Store) (hcreate : CreateRun db0 now0 ns mode = .ok (id, db1))
    (between : List StoreOp) (now : Clock) (s : String) (p e f : Int) (report log : String)
    (later : List StoreOp) (hlater : ∀ op ∈ later, op.completes id = false) :
    (∃ created, GetRun db1 id = .ok created ∧ created.Status = "running" ∧
      created.PodCount = 0 ∧ created.ErrorCount = 0 ∧ created.FixCount = 0) ∧
    (∃ run,
      GetRun (runStore (CompleteRun (runStore db1 between) now id s p e f report log) later) id =
        .ok run ∧
      run.PodCount = p ∧ run.ErrorCount = e ∧ run.FixCount = f) := by
  constructor
  · exact ⟨_, GetRun_after_CreateRun hcreate, rfl, rfl, rfl, rfl⟩
  · have hnew : ∃ r ∈ db1.runs, r.id = id := by
      rw [(CreateRun_ok hcreate).2]
      exact ⟨_, List.mem_append_right _ (List.mem_singleton_self _), rfl⟩
    obtain ⟨row, hrow, hid⟩ := find?_of_mem_id _ id (runStore_hasRun between db1 id hnew)
    have hdone : (CompleteRun (runStore db1 between) now id s p e f report log).runs.find?
        (fun r => r.id == id) = some (completeRow now s p e f report log row) := by
      show ((runStore db1 between).runs.map _).find? _ = _
      rw [find?_map_id _ _ _ (completeRow_id now s p e f report log id), hrow]
      show some (if (row.id == id) = true then _ else row) = _
      rw [hid]
      simp
    have hkept := runStore_find? later _ id _ hlater hdone
    refine ⟨{ ID := row.id, StartedAt := row.started_at, EndedAt := datetime now,
              Namespace := row.namespace_, Mode := row.mode, Status := s,
              PodCount := p, ErrorCount := e, FixCount := f, Report := report, Log := log },
      ?_, rfl, rfl, rfl⟩
    unfold GetRun
    rw [hkept]
    simp [scanRun, completeRow]

/-- C7 amended, at a concrete history: run 1 is created and completed, then
another run is created and completed and token usage is recorded. -/
theorem counts_fixed_until_recompleted_witness :
    (∃ created, GetRun (runStore emptyStore [StoreOp.createRun (clockAt 0) "prod" "autonomous"])
        1 = .ok created ∧ created.Status = "running" ∧
      created.PodCount = 0 ∧ created.ErrorCount = 0 ∧ created.FixCount = 0) ∧
    (∃ run,
      GetRun (runStore
        (CompleteRun
          (runStore (runStore emptyStore [StoreOp.createRun (clockAt 0) "prod" "autonomous"]) [])
          (clockAt 1) 1 "ok" 3 1 2 "report" "log")
        [StoreOp.createRun (clockAt 2) "dev" "autonomous",
         StoreOp.completeRun (clockAt 3) 2 "failed" 9 9 9 "" "",
         StoreOp.recordTokenUsage (clockAt 4) 1 "prod" "model" 100 50 (Float64.num 0)]) 1 =
        .ok run ∧
      run.PodCount = 3 ∧ run.ErrorCount = 1 ∧ run.FixCount = 2) :=
  counts_fixed_until_recompleted emptyStore (clockAt 0) "prod" "autonomous" 1
    (runStore emptyStore [StoreOp.createRun (clockAt 0) "prod" "autonomous"])
    (by decide) [] (clockAt 1) "ok" 3 1 2 "report" "log"
    [StoreOp.createRun (clockAt 2) "dev" "autonomous",
     StoreOp.completeRun (clockAt 3) 2 "failed" 9 9 9 "" "",
     StoreOp.recordTokenUsage (clockAt 4) 1 "prod" "model" 100 50 (Float64.num 0)]
    (by decide)

/-! ## `GetNamespaces` and `GetNamespaceStats` -/

theorem sumCase_filter (cond : RunRow → Bool) (ns : String) (rows : List RunRow) :
    sumCase cond (rows.filter (fun r => r.namespace_ == ns)) =
      ((rows.filter (fun r => r.namespace_ == ns && cond r)).length : Int) := by
  induction rows with
  | nil => rfl
  | cons r rest ih =>
    unfold sumCase at ih ⊢
    cases h1 : (r.namespace_ == ns) with
    | false => simpa [List.filter_cons, h1] using ih
    | true =>
      cases h2 : cond r with
      | false => simpa [List.filter_cons, h1, h2] using ih
      | true =>
        simp only [List.filter_cons, h1, h2, Bool.and_self, if_true, List.map_cons,
          List.sum_cons, List.length_cons, Nat.cast_add, Nat.cast_one, ih]
        ring

theorem length_filter_true (ns : String) (rows : List RunRow) :
    (rows.filter (fun r => r.namespace_ == ns)).length =
      (rows.filter (fun r => r.namespace_ == ns && (fun _ => true) r)).length := by
  simp

theorem GetNamespaces_eq (db : Store) :
    GetNamespaces db =
      .ok ((orderByAsc id (db.runs.map (fun r => r.namespace_)).dedup).map (fun ns =>
        { Namespace := ns,
          RunCount := countRuns db ns (fun _ => true),
          OkCount := countRuns db ns (fun r => r.status == "ok"),
          FixedCount := countRuns db ns (fun r => r.status == "fixed"),
          FailedCount :=
            countRuns db ns (fun r => r.status == "failed" || r.status == "issues_found") })) := by
  unfold GetNamespaces countRuns
  simp only [sumCase_filter]
  congr 2
  funext ns
  rw [length_filter_true]

theorem groups_filter (db : Store) (n : String) :
    (orderByAsc id (db.runs.map (fun r => r.namespace_)).dedup).filter (fun ns => ns == n) =
      if ∃ r ∈ db.runs, r.namespace_ = n then [n] else [] := by
  have hperm := orderByAsc_perm id (db.runs.map (fun r => r.namespace_)).dedup
  have hnodup : (orderByAsc id (db.runs.map (fun r => r.namespace_)).dedup).Nodup :=
    hperm.nodup_iff.2 (List.nodup_dedup _)
  have hmem : n ∈ orderByAsc id (db.runs.map (fun r => r.namespace_)).dedup ↔
      ∃ r ∈ db.runs, r.namespace_ = n := by
    rw [hperm.mem_iff, List.mem_dedup, List.mem_map]
  rw [List.filter_beq]
  split
  · next h =>
    rw [List.count_eq_one_of_mem hnodup (hmem.2 h)]
    rfl
  · next h =>
    rw [List.count_eq_zero_of_not_mem (fun hin => h (hmem.1 hin))]
    rfl

theorem countRuns_absent (db : Store) (n : String) (cond : RunRow → Bool)
    (h : ¬ ∃ r ∈ db.runs, r.namespace_ = n) : countRuns db n cond = 0 := by
  unfold countRuns
  have : db.runs.filter (fun r => r.namespace_ == n && cond r) = [] := by
    rw [List.filter_eq_nil_iff]
    intro r hr hc
    have hn : r.namespace_ = n := by
      simp only [Bool.and_eq_true, beq_iff_eq] at hc
      exact hc.1
    exact h ⟨r, hr, hn⟩
  rw [this]
  rfl

/-- C8. `GetNamespaceStats` is `GetNamespaces` scoped to one namespace: for every
store and namespace `n`, `GetNamespaceStats(n)` succeeds with `Namespace = n`,
`RunCount` the number of runs of `n`, `OkCount` those with status `ok`,
`FixedCount` those with status `fixed`, `FailedCount` those with status `failed`
or `issues_found`; `GetNamespaces()` succeeds too; if some run has namespace `n`,
exactly one row of `GetNamespaces()` has that namespace and it equals the result
of `GetNamespaceStats(n)`; if none has, `GetNamespaces()` has no row for `n` and
`GetNamespaceStats(n)` returns `n` with four zero counts. -/
theorem GetNamespaceStats_scopes_GetNamespaces (db : Store) (n : String) :
    GetNamespaceStats db n =
      .ok { Namespace := n,
            RunCount := ((db.runs.filter (fun r => r.namespace_ == n)).length : Int),
            OkCount := ((db.runs.filter (fun r =>
              r.namespace_ == n && r.status == "ok")).length : Int),
            FixedCount := ((db.runs.filter (fun r =>
              r.namespace_ == n && r.status == "fixed")).length : Int),
            FailedCount := ((db.runs.filter (fun r =>
              r.namespace_ == n &&
                (r.status == "failed" || r.status == "issues_found"))).length : Int) } ∧
    ∃ stats rows, GetNamespaceStats db n = .ok stats ∧ GetNamespaces db = .ok rows ∧
      ((∃ r ∈ db.runs, r.namespace_ = n) →
        rows.filter (fun row => row.Namespace == n) = [stats]) ∧
      ((¬ ∃ r ∈ db.runs, r.namespace_ = n) →
        rows.filter (fun row => row.Namespace == n) = [] ∧
        stats = { Namespace := n, RunCount := 0, OkCount := 0, FixedCount := 0,
                  FailedCount := 0 }) := by
  constructor
  · unfold GetNamespaceStats countRuns
    simp only [Bool.and_true]
  · refine ⟨_, _, rfl, GetNamespaces_eq db, ?_, ?_⟩
    · intro h
      rw [List.filter_map]
      have hf := groups_filter db n
      rw [if_pos h] at hf
      show List.map _ (List.filter (fun ns => ns == n) _) = _
      rw [hf]
      rfl
    · intro h
      constructor
      · rw [List.filter_map]
        have hf := groups_filter db n
        rw [if_neg h] at hf
        show List.map _ (List.filter (fun ns => ns == n) _) = _
        rw [hf]
        rfl
      · simp only [countRuns_absent db n _ h]

/-! ## `RecordTokenUsage` and `GetTokenUsage` -/

theorem wrapInt64_of_inRange (x : Int) (h1 : minInt64 ≤ x) (h2 : x ≤ maxInt64) :
    wrapInt64 x = x := by
  unfold wrapInt64
  unfold minInt64 at h1
  unfold maxInt64 at h2
  norm_num at h1 h2 ⊢
  omega

theorem CreateRun_token_usage {db : Store} {now : Clock} {ns mode : String} {res : Int × Store}
    (h : CreateRun db now ns mode = .ok res) : res.2.token_usage = db.token_usage := by
  unfold CreateRun at h
  simp only [] at h
  split at h
  · cases h
  · injection h with h
    subst h
    rfl

theorem applyStoreOp_token_usage (db : Store) (op : StoreOp) :
    (applyStoreOp db op).token_usage = db.token_usage ∨
    (∃ now runID ns model i o cost,
      op = StoreOp.recordTokenUsage now runID ns model i o cost ∧
      (applyStoreOp db op).token_usage = db.token_usage ++
        [{ id := nextRowid db.tokenUsageSeq (db.token_usage.map (fun r => r.id)),
           run_id := some runID, namespace_ := ns, model := model,
           input_tokens := some i, output_tokens := some o,
           total_tokens := some (wrapInt64 (i + o)), cost := bindFloat64 cost,
           created_at := datetime now }]) := by
  cases op with
  | createRun now ns mode =>
    simp only [applyStoreOp]
    cases hc : CreateRun db now ns mode with
    | error e => exact Or.inl rfl
    | ok res => exact Or.inl (CreateRun_token_usage hc)
  | completeRun now id1 s p e f report log => exact Or.inl rfl
  | recordTokenUsage now runID ns model i o cost =>
    simp only [applyStoreOp]
    cases hc : RecordTokenUsage db now runID ns model i o cost with
    | error e => exact Or.inl rfl
    | ok db1 => exact Or.inr ⟨now, runID, ns, model, i, o, cost, rfl, (RecordTokenUsage_ok hc).2⟩
  | deleteSession sid =>
    simp only [applyStoreOp]
    cases hc : DeleteSession db sid with
    | error e => exact Or.inl rfl
    | ok db1 => exact Or.inl (DeleteSession_ok hc).2

theorem runStore_token_usage_total (ops : List StoreOp) (db : Store)
    (h : ∀ row ∈ db.token_usage, ∃ i o, row.input_tokens = some i ∧
      row.output_tokens = some o ∧ row.total_tokens = some (wrapInt64 (i + o))) :
    ∀ row ∈ (runStore db ops).token_usage, ∃ i o, row.input_tokens = some i ∧
      row.output_tokens = some o ∧ row.total_tokens = some (wrapInt64 (i + o)) := by
  induction ops generalizing db with
  | nil => exact h
  | cons op rest ih =>
    apply ih (applyStoreOp db op)
    rcases applyStoreOp_token_usage db op with h1 | ⟨now, runID, ns, model, i, o, cost, _, h1⟩
    · rw [h1]
      exact h
    · rw [h1]
      intro row hrow
      rcases List.mem_append.1 hrow with hold | hnew
      · exact h row hold
      · rw [List.mem_singleton] at hnew
        subst hnew
        exact ⟨i, o, rfl, rfl, rfl⟩

theorem runStore_token_usage_cost (ops : List StoreOp) (db : Store)
    (hops : ∀ op ∈ ops, op.recordsNaN = false)
    (h : ∀ row ∈ db.token_usage, row.cost ≠ none) :
    ∀ row ∈ (runStore db ops).token_usage, row.cost ≠ none := by
  induction ops generalizing db with
  | nil => exact h
  | cons op rest ih =>
    apply ih (applyStoreOp db op) (fun o ho => hops o (List.mem_cons_of_mem _ ho))
    rcases applyStoreOp_token_usage db op with h1 | ⟨now, runID, ns, model, i, o, cost, hop, h1⟩
    · rw [h1]
      exact h
    · rw [h1]
      intro row hrow
      rcases List.mem_append.1 hrow with hold | hnew
      · exact h row hold
      · rw [List.mem_singleton] at hnew
        subst hnew
        have hnan := hops op (List.mem_cons_self _ _)
        rw [hop] at hnan
        cases cost with
        | nan => simp [StoreOp.recordsNaN] at hnan
        | num bits => simp [bindFloat64]

theorem scanTokenUsage_ok {r : TokenUsageRow} {u : TokenUsage} (h : scanTokenUsage r = .ok u) :
    r.input_tokens = some u.InputTokens ∧ r.output_tokens = some u.OutputTokens ∧
    r.total_tokens = some u.TotalTokens := by
  unfold scanTokenUsage at h
  split at h
  · next i o t c hi ho ht hc =>
    injection h with h
    subst h
    exact ⟨hi, ho, ht⟩
  · cases h

theorem scanTokenUsages_ok {rows : List TokenUsageRow} {us : List TokenUsage}
    (h : scanTokenUsages rows = .ok us) :
    ∀ u ∈ us, ∃ r ∈ rows, scanTokenUsage r = .ok u := by
  induction rows generalizing us with
  | nil =>
    simp only [scanTokenUsages] at h
    injection h with h
    subst h
    intro u hu
    cases hu
  | cons r rest ih =>
    simp only [scanTokenUsages] at h
    cases h1 : scanTokenUsage r with
    | error e => simp [h1] at h
    | ok u0 =>
      cases h2 : scanTokenUsages rest with
      | error e => simp [h1, h2] at h
      | ok rs =>
        simp only [h1, h2] at h
        injection h with h
        subst h
        intro u hu
        rcases List.mem_cons.1 hu with rfl | hmem
        · exact ⟨r, List.mem_cons_self _ _, h1⟩
        · obtain ⟨r1, hr1, hs⟩ := ih h2 u hmem
          exact ⟨r1, List.mem_cons_of_mem _ hr1, hs⟩

theorem scanTokenUsages_succeeds (rows : List TokenUsageRow)
    (h : ∀ row ∈ rows, (∃ i o, row.input_tokens = some i ∧ row.output_tokens = some o ∧
      row.total_tokens = some (wrapInt64 (i + o))) ∧ row.cost ≠ none) :
    ∃ us, scanTokenUsages rows = .ok us := by
  induction rows with
  | nil => exact ⟨[], rfl⟩
  | cons r rest ih =>
    obtain ⟨us, hus⟩ := ih (fun row hrow => h row (List.mem_cons_of_mem _ hrow))
    obtain ⟨⟨i, o, hi, ho, ht⟩, hc⟩ := h r (List.mem_cons_self _ _)
    obtain ⟨c, hc1⟩ := Option.ne_none_iff_exists'.1 hc
    simp [scanTokenUsages, scanTokenUsage, hi, ho, ht, hc1, hus]

theorem orderByDesc_append_newest {α : Type} (key : α → String) (rows : List α) (x : α)
    (h : ∀ a ∈ rows, textLT (key a) (key x)) :
    orderByDesc key (rows ++ [x]) = x :: orderByDesc key rows := by
  unfold orderByDesc
  induction rows with
  | nil => rfl
  | cons a rest ih =>
    have hlt : textLT (key a) (key x) := h a (List.mem_cons_self _ _)
    have hnot : ¬ textLE (key x) (key a) := not_le_of_lt (α := List Char) hlt
    show List.orderedInsert _ a (List.insertionSort _ (rest ++ [x])) =
      x :: List.orderedInsert _ a (List.insertionSort _ rest)
    rw [ih (fun b hb => h b (List.mem_cons_of_mem _ hb))]
    simp only [List.orderedInsert, hnot, if_false]

/-- C9, as stated, fails: recording `inputTokens = 9223372036854775807` and
`outputTokens = 1` on the empty table stores the wrapped Go sum, so the row
`GetTokenUsage(1)` returns has `TotalTokens = -9223372036854775808`, which is not
`InputTokens + OutputTokens`. -/
theorem total_tokens_wraps_on_overflow :
    (GetTokenUsage (runStore emptyStore
        [StoreOp.recordTokenUsage (clockAt 0) 1 "prod" "model" 9223372036854775807 1
          (Float64.num 0)]) 1).toOption.map
      (fun rows => rows.map (fun u =>
        (u.InputTokens, u.OutputTokens, u.TotalTokens,
          decide (u.TotalTokens = u.InputTokens + u.OutputTokens)))) =
      some [(9223372036854775807, 1, -9223372036854775808, false)] := by
  decide

/-- C9, amended. For every `token_usage` table reached from the empty table by
any sequence of data-store writes (`RecordTokenUsage` with arbitrary counts among
them), every row returned by `GetTokenUsage(limit)` has `TotalTokens` equal to
`InputTokens + OutputTokens` reduced to Go's 64-bit `int`, hence equal to
`InputTokens + OutputTokens` whenever that sum lies between `-2^63` and
`2^63 - 1`; and `GetTokenUsage` does return rows when no recorded cost is NaN. -/
theorem total_tokens_is_go_sum (db0 : Store) (h0 : db0.token_usage = [])
    (ops : List StoreOp) (limit : Int) :
    (∀ rows, GetTokenUsage (runStore db0 ops) limit = .ok rows →
      ∀ u ∈ rows,
        u.TotalTokens = wrapInt64 (u.InputTokens + u.OutputTokens) ∧
        (minInt64 ≤ u.InputTokens + u.OutputTokens →
          u.InputTokens + u.OutputTokens ≤ maxInt64 →
          u.TotalTokens = u.InputTokens + u.OutputTokens)) ∧
    ((∀ op ∈ ops, op.recordsNaN = false) →
      ∃ rows, GetTokenUsage (runStore db0 ops) limit = .ok rows) := by
  have hinv := runStore_token_usage_total ops db0 (by rw [h0]; intro row hrow; cases hrow)
  have hsub : ∀ row ∈ sqlLimit limit
      (orderByDesc (fun r : TokenUsageRow => r.created_at) (runStore db0 ops).token_usage),
      row ∈ (runStore db0 ops).token_usage :=
    fun row hrow => (orderByDesc_perm _ _).subset ((sqlLimit_sublist _ _).subset hrow)
  constructor
  · intro rows hrows u hu
    obtain ⟨r, hr, hscan⟩ := scanTokenUsages_ok hrows u hu
    obtain ⟨i, o, hi, ho, ht⟩ := hinv r (hsub r hr)
    obtain ⟨hi1, ho1, ht1⟩ := scanTokenUsage_ok hscan
    have ei : i = u.InputTokens := Option.some.inj (hi.symm.trans hi1)
    have eo : o = u.OutputTokens := Option.some.inj (ho.symm.trans ho1)
    have et : wrapInt64 (i + o) = u.TotalTokens := Option.some.inj (ht.symm.trans ht1)
    subst ei eo
    refine ⟨et.symm, fun h1 h2 => ?_⟩
    rw [← et]
    exact wrapInt64_of_inRange _ h1 h2
  · intro hops
    have hcost := runStore_token_usage_cost ops db0 hops
      (by rw [h0]; intro row hrow; cases hrow)
    exact scanTokenUsages_succeeds _ (fun row hrow =>
      ⟨hinv row (hsub row hrow), hcost row (hsub row hrow)⟩)

/-- C9 amended, at the spec's values: 100 and 50 tokens recorded on the empty
table read back as one row with total 150. -/
theorem total_tokens_is_go_sum_witness :
    GetTokenUsage (runStore emptyStore
        [StoreOp.recordTokenUsage (clockAt 0) 1 "prod" "model" 100 50 (Float64.num 0)]) 1 =
      .ok [sampleUsage] ∧
    sampleUsage.TotalTokens = sampleUsage.InputTokens + sampleUsage.OutputTokens :=
  ⟨by decide,
   ((total_tokens_is_go_sum emptyStore rfl
      [StoreOp.recordTokenUsage (clockAt 0) 1 "prod" "model" 100 50 (Float64.num 0)] 1).1
      [sampleUsage] (by decide) sampleUsage (List.mem_singleton_self _)).2
      (by decide) (by decide)⟩

/-- C10, as stated, fails: when the table already holds a row whose `created_at`
is later than the engine clock at the time of the new insert,
`RecordTokenUsage(2, prod, model, 100, 50, _)` followed by `GetTokenUsage(1)`
returns that older row (id 1, total 7), not the row just recorded. -/
theorem GetTokenUsage_one_not_the_new_row :
    (GetTokenUsage (runStore emptyStore
        [StoreOp.recordTokenUsage (clockAt 30) 1 "prod" "model" 3 4 (Float64.num 0),
         StoreOp.recordTokenUsage (clockAt 10) 2 "prod" "model" 100 50 (Float64.num 0)])
      1).toOption.map
      (fun rows => rows.map (fun u => (u.ID, u.RunID, u.TotalTokens, u.CreatedAt))) =
      some [(1, 1, 7, "2025-01-01 00:00:30")] := by
  decide

/-- C10, amended. For every store and arguments with a cost that is not NaN:
when `RecordTokenUsage(runID, ns, model, in, out, cost)` succeeds and every row
already in the table has a `created_at` strictly earlier than the new row's
timestamp (in particular on an empty table), `GetTokenUsage(1)` returns exactly
one row and it is the row just recorded: the new rowid, the given run id,
namespace, model and counts, `created_at` the insert time, `TotalTokens` the Go
sum `in + out`, which is `in + out` itself whenever that lies between `-2^63`
and `2^63 - 1`, and `Cost` the given cost as the REAL column reads it back: bit
for bit, except that a negative zero comes back as positive zero. -/
theorem RecordTokenUsage_then_GetTokenUsage_one (db : Store) (now : Clock) (runID : Int)
    (ns model : String) (i o : Int) (bits : Nat) (db1 : Store)
    (hrec : RecordTokenUsage db now runID ns model i o (Float64.num bits) = .ok db1)
    (hearlier : ∀ row ∈ db.token_usage, textLT row.created_at (datetime now)) :
    GetTokenUsage db1 1 =
      .ok [{ ID := nextRowid db.tokenUsageSeq (db.token_usage.map (fun r => r.id)),
             RunID := runID, Namespace := ns, Model := model, InputTokens := i,
             OutputTokens := o, TotalTokens := wrapInt64 (i + o),
             Cost := Float64.num (storedBits bits), CreatedAt := datetime now }] ∧
    (minInt64 ≤ i + o → i + o ≤ maxInt64 → wrapInt64 (i + o) = i + o) ∧
    (bits ≠ 2 ^ 63 → storedBits bits = bits) ∧
    (bits = 2 ^ 63 → storedBits bits = 0) := by
  refine ⟨?_, wrapInt64_of_inRange _, fun h => if_neg h, fun h => if_pos h⟩
  unfold GetTokenUsage
  rw [(RecordTokenUsage_ok hrec).2,
    orderByDesc_append_newest (fun r : TokenUsageRow => r.created_at) _ _ hearlier]
  simp [sqlLimit, scanTokenUsages, scanTokenUsage, bindFloat64]

/-- C10 amended, at the spec's values: 100 and 50 tokens recorded after an
earlier row give back one row with total 150 and the recorded cost; a cost of
negative zero recorded on the empty table reads back as positive zero. -/
theorem RecordTokenUsage_then_GetTokenUsage_one_witness :
    GetTokenUsage
        (runStore emptyStore
          [StoreOp.recordTokenUsage (clockAt 10) 1 "prod" "model" 3 4 (Float64.num 0),
           StoreOp.recordTokenUsage (clockAt 30) 2 "prod" "model" 100 50 (Float64.num 7)]) 1 =
      .ok [{ ID := 2, RunID := 2, Namespace := "prod", Model := "model", InputTokens := 100,
             OutputTokens := 50, TotalTokens := 150, Cost := Float64.num 7,
             CreatedAt := "2025-01-01 00:00:30" }] ∧
    GetTokenUsage
        (runStore emptyStore
          [StoreOp.recordTokenUsage (clockAt 30) 2 "prod" "model" 100 50
            (Float64.num 9223372036854775808)]) 1 =
      .ok [{ ID := 1, RunID := 2, Namespace := "prod", Model := "model", InputTokens := 100,
             OutputTokens := 50, TotalTokens := 150, Cost := Float64.num 0,
             CreatedAt := "2025-01-01 00:00:30" }] :=
  ⟨(RecordTokenUsage_then_GetTokenUsage_one
    (runStore emptyStore
      [StoreOp.recordTokenUsage (clockAt 10) 1 "prod" "model" 3 4 (Float64.num 0)])
    (clockAt 30) 2 "prod" "model" 100 50 7
    (runStore emptyStore
      [StoreOp.recordTokenUsage (clockAt 10) 1 "prod" "model" 3 4 (Float64.num 0),
       StoreOp.recordTokenUsage (clockAt 30) 2 "prod" "model" 100 50 (Float64.num 7)])
    (by decide) (by decide)).1,
   (RecordTokenUsage_then_GetTokenUsage_one emptyStore (clockAt 30) 2 "prod" "model" 100 50
    9223372036854775808
    (runStore emptyStore
      [StoreOp.recordTokenUsage (clockAt 30) 2 "prod" "model" 100 50
        (Float64.num 9223372036854775808)])
    (by decide) (by decide)).1⟩

/-! ## `GetCostStats` -/

/-- C13, as stated, fails: on a store whose only run has a NULL `pod_count`,
`GetRuns` returns an error for the overview page, yet `Handler.Index` writes no
500: its one write is the page `index.html` rendered with an empty run list. -/
theorem Index_renders_page_when_GetRuns_fails :
    (brokenRuns.view (fun _ => "scan error")).GetRuns "prod" 50 = .error "scan error" ∧
    Index { db := brokenRuns.view (fun _ => "scan error"), tmpl := fun _ _ => none,
            logFile := some "log line" } (fun _ => 0) "" "" =
      [Write.executeTemplate "index.html"
        { Page := "overview",
          Namespaces := [{ Namespace := "prod", RunCount := 1, OkCount := 0, FixedCount := 0,
                           FailedCount := 0 }],
          CurrentNS := "prod", Runs := [], SelectedRun := none, SelectedFixes := [],
          Stats := some { Namespace := "prod", RunCount := 1, OkCount := 0, FixedCount := 0,
                          FailedCount := 0 },
          Log := "log line", Sessions := [], TokenUsage := [], CostStats := none,
          Runbooks := [] }] := by
  decide

/-- C13, amended. When the data store fails with an error `e` while fetching the
run list: `Handler.APIRuns` answers with `http.Error(w, e, 500)`, the raw error
text, and nothing else; `Handler.Index` drops the error and renders `index.html`
for the overview with an empty run list (and, when no run is requested, no
selected run and no fixes), writing a 500 only if the template execution itself
returns an error, with that error's text. -/
theorem GetRuns_failure_in_handlers (h : Handler) (Atoi : String → Int) (ns run e : String) :
    (h.db.GetRuns ns 100 = .error e → APIRuns h ns = [Write.httpError e 500]) ∧
    (h.db.GetRuns (effectiveNamespace (sliceOrNil h.db.GetNamespaces) ns) 50 = .error e →
      ∃ data rest, Index h Atoi ns run = Write.executeTemplate "index.html" data :: rest ∧
        data.Page = "overview" ∧ data.Runs = [] ∧
        data.CurrentNS = effectiveNamespace (sliceOrNil h.db.GetNamespaces) ns ∧
        (run = "" → data.SelectedRun = none ∧ data.SelectedFixes = []) ∧
        (h.tmpl "index.html" data = none → rest = []) ∧
        (∀ err, h.tmpl "index.html" data = some err → rest = [Write.httpError err 500])) := by
  constructor
  · intro hfail
    simp [APIRuns, hfail, StatusInternalServerError]
  · intro hfail
    have hruns : sliceOrNil
        (h.db.GetRuns (effectiveNamespace (sliceOrNil h.db.GetNamespaces) ns) 50) = [] := by
      rw [hfail]
      rfl
    unfold Index
    simp only [hruns]
    split
    · next hnone =>
      refine ⟨_, [], rfl, rfl, rfl, rfl, ?_, fun _ => rfl, ?_⟩
      · intro hrun
        simp [hrun]
      · intro err herr
        rw [hnone] at herr
        cases herr
    · next err hsome =>
      refine ⟨_, _, rfl, rfl, rfl, rfl, ?_, ?_, ?_⟩
      · intro hrun
        simp [hrun]
      · intro hnone
        rw [hsome] at hnone
        cases hnone
      · intro err1 herr
        rw [hsome] at herr
        cases herr
        rfl

/-- C13 amended, on the store whose only run has a NULL `pod_count`: `/api/runs`
answers 500 with the error text. -/
theorem GetRuns_failure_in_handlers_witness :
    APIRuns { db := brokenRuns.view (fun _ => "scan error"), tmpl := fun _ _ => none,
              logFile := none } "" = [Write.httpError "scan error" 500] :=
  (GetRuns_failure_in_handlers
    { db := brokenRuns.view (fun _ => "scan error"), tmpl := fun _ _ => none, logFile := none }
    (fun _ => 0) "" "" "scan error").1 (by decide)

/-! ## `GetFixes` and `GetFixesByRun` -/

theorem scanFix_ok {row : FixRow} {f : Fix} (h : scanFix row = .ok f) :
    f.RunID = row.run_id.getD 0 ∧ f.ErrorMessage = row.error_message.getD "" ∧
    f.FixApplied = row.fix_applied.getD "" := by
  unfold scanFix at h
  split at h
  · injection h with h
    subst h
    exact ⟨rfl, rfl, rfl⟩
  · cases h

theorem scanFixes_mem {rows : List FixRow} {fs : List Fix} (h : scanFixes rows = .ok fs) :
    ∀ f, f ∈ fs ↔ ∃ row ∈ rows, scanFix row = .ok f := by
  induction rows generalizing fs with
  | nil =>
    simp only [scanFixes] at h
    injection h with h
    subst h
    simp
  | cons r rest ih =>
    simp only [scanFixes] at h
    cases h1 : scanFix r with
    | error e => simp [h1] at h
    | ok f0 =>
      cases h2 : scanFixes rest with
      | error e => simp [h1, h2] at h
      | ok rs =>
        simp only [h1, h2] at h
        injection h with h
        subst h
        intro f
        constructor
        · intro hf
          rcases List.mem_cons.1 hf with rfl | hmem
          · exact ⟨r, List.mem_cons_self _ _, h1⟩
          · obtain ⟨row, hrow, hs⟩ := (ih h2 f).1 hmem
            exact ⟨row, List.mem_cons_of_mem _ hrow, hs⟩
        · rintro ⟨row, hrow, hs⟩
          rcases List.mem_cons.1 hrow with rfl | hmem
          · rw [h1] at hs
            injection hs with hs
            rw [hs]
            exact List.mem_cons_self _ _
          · exact List.mem_cons_of_mem _ ((ih h2 f).2 ⟨row, hmem, hs⟩)

theorem scanFixes_succeeds (rows : List FixRow) (h : ∀ row ∈ rows, ∃ f, scanFix row = .ok f) :
    ∃ fs, scanFixes rows = .ok fs := by
  induction rows with
  | nil => exact ⟨[], rfl⟩
  | cons r rest ih =>
    obtain ⟨fs, hfs⟩ := ih (fun row hrow => h row (List.mem_cons_of_mem _ hrow))
    obtain ⟨f, hf⟩ := h r (List.mem_cons_self _ _)
    exact ⟨f :: fs, by simp [scanFixes, hf, hfs]⟩

theorem scanFixes_each {rows : List FixRow} {fs : List Fix} (h : scanFixes rows = .ok fs) :
    ∀ row ∈ rows, ∃ f, scanFix row = .ok f := by
  induction rows generalizing fs with
  | nil => intro row hrow; cases hrow
  | cons r rest ih =>
    simp only [scanFixes] at h
    cases h1 : scanFix r with
    | error e => simp [h1] at h
    | ok f0 =>
      cases h2 : scanFixes rest with
      | error e => simp [h1, h2] at h
      | ok rs =>
        intro row hrow
        rcases List.mem_cons.1 hrow with rfl | hmem
        · exact ⟨f0, h1⟩
        · exact ih h2 row hmem

theorem sqlLimit_all {α : Type} (limit : Int) (rows : List α)
    (h : (rows.length : Int) ≤ limit) : sqlLimit limit rows = rows := by
  unfold sqlLimit
  split
  · rfl
  · exact List.take_of_length_le (by omega)

theorem mem_selected_fixes (db : Store) (r : Int) (row : FixRow) :
    row ∈ orderByDesc (fun x : FixRow => x.timestamp)
        (db.fixes.filter (fun x => x.run_id == some r)) ↔
      row ∈ db.fixes ∧ row.run_id = some r := by
  rw [(orderByDesc_perm _ _).mem_iff, List.mem_filter]
  simp

/-- C15, as stated, fails at run id 0: on a table with a legacy row (NULL
`run_id`), `GetFixes(2)` returns that row with `RunID = 0`, while
`GetFixesByRun(0)` returns no fix at all. -/
theorem GetFixesByRun_zero_misses_legacy_rows :
    (GetFixes sampleFixes 2).toOption.map
      (fun all => (all.filter (fun f => f.RunID == 0)).map (fun f => f.ID)) = some [1] ∧
    GetFixesByRun sampleFixes 0 = .ok [] := by
  decide

/-- C15, amended. For every fixes table and run id `r`: every fix
`GetFixesByRun(r)` returns comes from a row whose stored `run_id` is `r`, has
`RunID = r`, and has a NULL `error_message` / `fix_applied` read as the empty
string.  Whenever `GetFixes(limit)` succeeds with a limit at least the number of
rows, `GetFixesByRun(r)` succeeds too and each of its fixes is a fix `f` of
`GetFixes(limit)` with `f.RunID = r`; for `r ≠ 0` the two sets are equal; for
`r = 0` the fixes of `GetFixes(limit)` with `RunID = 0` that `GetFixesByRun(0)`
does not return are those of legacy rows, whose `run_id` is NULL. -/
theorem GetFixesByRun_agrees_with_GetFixes (db : Store) (r : Int) (limit : Int)
    (hlimit : (db.fixes.length : Int) ≤ limit) :
    (∀ byRun, GetFixesByRun db r = .ok byRun →
      (∀ f, f ∈ byRun ↔ ∃ row ∈ db.fixes, row.run_id = some r ∧ scanFix row = .ok f) ∧
      (∀ f ∈ byRun, f.RunID = r) ∧
      (∀ f ∈ byRun, ∃ row ∈ db.fixes, scanFix row = .ok f ∧
        f.ErrorMessage = row.error_message.getD "" ∧
        f.FixApplied = row.fix_applied.getD "")) ∧
    (∀ all, GetFixes db limit = .ok all →
      ∃ byRun, GetFixesByRun db r = .ok byRun ∧
        (∀ f ∈ byRun, f ∈ all ∧ f.RunID = r) ∧
        (r ≠ 0 → ∀ f, f ∈ byRun ↔ (f ∈ all ∧ f.RunID = r)) ∧
        (∀ f ∈ all, f.RunID = r → f ∉ byRun →
          r = 0 ∧ ∃ row ∈ db.fixes, row.run_id = none ∧ scanFix row = .ok f)) := by
  have part1 : ∀ byRun, GetFixesByRun db r = .ok byRun →
      ∀ f, f ∈ byRun ↔ ∃ row ∈ db.fixes, row.run_id = some r ∧ scanFix row = .ok f := by
    intro byRun hby f
    unfold GetFixesByRun at hby
    rw [scanFixes_mem hby f]
    constructor
    · rintro ⟨row, hrow, hs⟩
      obtain ⟨h1, h2⟩ := (mem_selected_fixes db r row).1 hrow
      exact ⟨row, h1, h2, hs⟩
    · rintro ⟨row, h1, h2, hs⟩
      exact ⟨row, (mem_selected_fixes db r row).2 ⟨h1, h2⟩, hs⟩
  have runid : ∀ byRun, GetFixesByRun db r = .ok byRun → ∀ f ∈ byRun, f.RunID = r := by
    intro byRun hby f hf
    obtain ⟨row, _, hrun, hs⟩ := (part1 byRun hby f).1 hf
    rw [(scanFix_ok hs).1, hrun]
    rfl
  constructor
  · intro byRun hby
    refine ⟨part1 byRun hby, runid byRun hby, ?_⟩
    intro f hf
    obtain ⟨row, hrow, _, hs⟩ := (part1 byRun hby f).1 hf
    exact ⟨row, hrow, hs, (scanFix_ok hs).2⟩
  · intro all hall
    unfold GetFixes at hall
    rw [sqlLimit_all limit _ (by rw [(orderByDesc_perm _ _).length_eq]; exact hlimit)] at hall
    have hallmem : ∀ f, f ∈ all ↔ ∃ row ∈ db.fixes, scanFix row = .ok f := by
      intro f
      rw [scanFixes_mem hall f]
      constructor
      · rintro ⟨row, hrow, hs⟩
        exact ⟨row, (orderByDesc_perm _ _).mem_iff.1 hrow, hs⟩
      · rintro ⟨row, hrow, hs⟩
        exact ⟨row, (orderByDesc_perm _ _).mem_iff.2 hrow, hs⟩
    have heach : ∀ row ∈ db.fixes, ∃ f, scanFix row = .ok f := fun row hrow =>
      scanFixes_each hall row ((orderByDesc_perm _ _).mem_iff.2 hrow)
    obtain ⟨byRun, hby⟩ : ∃ byRun, GetFixesByRun db r = .ok byRun := by
      unfold GetFixesByRun
      exact scanFixes_succeeds _ (fun row hrow =>
        heach row ((mem_selected_fixes db r row).1 hrow).1)
    refine ⟨byRun, hby, ?_, ?_, ?_⟩
    · intro f hf
      obtain ⟨row, hrow, _, hs⟩ := (part1 byRun hby f).1 hf
      exact ⟨(hallmem f).2 ⟨row, hrow, hs⟩, runid byRun hby f hf⟩
    · intro hr f
      constructor
      · intro hf
        obtain ⟨row, hrow, _, hs⟩ := (part1 byRun hby f).1 hf
        exact ⟨(hallmem f).2 ⟨row, hrow, hs⟩, runid byRun hby f hf⟩
      · rintro ⟨hf, hrun⟩
        obtain ⟨row, hrow, hs⟩ := (hallmem f).1 hf
        have hid := (scanFix_ok hs).1
        rw [hrun] at hid
        refine (part1 byRun hby f).2 ⟨row, hrow, ?_, hs⟩
        cases hrid : row.run_id with
        | none =>
          rw [hrid] at hid
          exact absurd hid hr
        | some x =>
          rw [hrid] at hid
          rw [hid]
          rfl
    · intro f hf hrun hnot
      obtain ⟨row, hrow, hs⟩ := (hallmem f).1 hf
      have hid := (scanFix_ok hs).1
      rw [hrun] at hid
      cases hrid : row.run_id with
      | none =>
        rw [hrid] at hid
        exact ⟨hid, row, hrow, hrid, hs⟩
      | some x =>
        rw [hrid] at hid
        have hx : row.run_id = some r := by
          rw [hrid, hid]
          rfl
        exact absurd ((part1 byRun hby f).2 ⟨row, hrow, hx, hs⟩) hnot

/-- C15 amended, on the table with a legacy row and a row of run 7: the fixes of
run 7 are the fixes of `GetFixes(2)` with `RunID = 7`. -/
theorem GetFixesByRun_agrees_with_GetFixes_witness :
    ∃ byRun, GetFixesByRun sampleFixes 7 = .ok byRun ∧
      (∀ f ∈ byRun,
        f ∈ [({ ID := 2, RunID := 7, Timestamp := "2025-01-01 00:00:00", Namespace := "prod",
                PodName := "api-1", ErrorType := "OOMKilled",
                ErrorMessage := "out of memory", FixApplied := "", Status := "pending" } : Fix),
             { ID := 1, RunID := 0, Timestamp := "2024-12-31 00:00:00", Namespace := "prod",
               PodName := "api-0", ErrorType := "CrashLoopBackOff", ErrorMessage := "",
               FixApplied := "", Status := "success" }] ∧
        f.RunID = 7) :=
  match (GetFixesByRun_agrees_with_GetFixes sampleFixes 7 2 (by decide)).2
      [{ ID := 2, RunID := 7, Timestamp := "2025-01-01 00:00:00", Namespace := "prod",
         PodName := "api-1", ErrorType := "OOMKilled", ErrorMessage := "out of memory",
         FixApplied := "", Status := "pending" },
       { ID := 1, RunID := 0, Timestamp := "2024-12-31 00:00:00", Namespace := "prod",
         PodName := "api-0", ErrorType := "CrashLoopBackOff", ErrorMessage := "",
         FixApplied := "", Status := "success" }]
      (by decide) with
  | ⟨byRun, hby, hsub, _, _⟩ => ⟨byRun, hby, hsub⟩

/-! ## `formatNumber` -/

theorem digitChar_isDigit (k : Nat) (h : k < 10) : (Nat.digitChar k).isDigit = true := by
  interval_cases k <;> rfl

theorem toDigitsCore_isDigit (fuel n : Nat) (ds : List Char)
    (h : ∀ c ∈ ds, c.isDigit = true) :
    ∀ c ∈ Nat.toDigitsCore 10 fuel n ds, c.isDigit = true := by
  induction fuel generalizing n ds with
  | zero => simpa [Nat.toDigitsCore] using h
  | succ fuel ih =>
    have hd : (Nat.digitChar (n % 10)).isDigit = true :=
      digitChar_isDigit _ (Nat.mod_lt _ (by decide))
    have hds : ∀ c ∈ Nat.digitChar (n % 10) :: ds, c.isDigit = true := by
      intro c hc
      rcases List.mem_cons.1 hc with rfl | hmem
      · exact hd
      · exact h c hmem
    simp only [Nat.toDigitsCore]
    split
    · exact hds
    · exact ih _ _ hds

theorem sprintfD_ofNat_isDigit (m : Nat) : ∀ c ∈ sprintfD (m : Int), c.isDigit = true :=
  toDigitsCore_isDigit (m + 1) m [] (fun c hc => by cases hc)

theorem sprintfD_no_comma (n : Int) : ∀ c ∈ sprintfD n, c ≠ ',' := by
  have hdigit : ∀ c : Char, c.isDigit = true → c ≠ ',' := by
    intro c hc e
    rw [e] at hc
    exact absurd hc (by decide)
  cases n with
  | ofNat m => exact fun c hc => hdigit c (sprintfD_ofNat_isDigit m c hc)
  | negSucc m =>
    intro c hc
    have hc1 : c ∈ '-' :: Nat.toDigits 10 (m + 1) := hc
    rcases List.mem_cons.1 hc1 with rfl | hmem
    · decide
    · exact hdigit c (toDigitsCore_isDigit (m + 1 + 1) (m + 1) [] (fun c hc => by cases hc) c hmem)

theorem commaGroupedFrom_cons (left : Option Char) (c : Char) (rest : List Char) :
    commaGroupedFrom left (c :: rest) =
      if (match left with
          | some l => l.isDigit
          | none => false) = true ∧
          0 < ((c :: rest).filter Char.isDigit).length ∧
          ((c :: rest).filter Char.isDigit).length % 3 = 0 then
        ',' :: c :: commaGroupedFrom (some c) rest
      else c :: commaGroupedFrom (some c) rest := by
  simp only [commaGroupedFrom]

theorem foldl_formatStep_digits (len : Nat) (rest : List Char) (i : Nat) (left : Option Char)
    (acc : List Char) (hall : ∀ c ∈ rest, c.isDigit = true) (hlen : i + rest.length = len)
    (hleft : (i = 0 ∧ left = none) ∨ (0 < i ∧ ∃ l, left = some l ∧ l.isDigit = true)) :
    (rest.enumFrom i).foldl (formatStep len) acc = acc ++ commaGroupedFrom left rest := by
  induction rest generalizing i left acc with
  | nil => simp [commaGroupedFrom]
  | cons c rest ih =>
    have hc : c.isDigit = true := hall c (List.mem_cons_self _ _)
    have hrest : ∀ x ∈ rest, x.isDigit = true := fun x hx => hall x (List.mem_cons_of_mem _ hx)
    have hfilter : ((c :: rest).filter Char.isDigit).length = len - i := by
      rw [List.filter_eq_self.2 hall]
      simp only [List.length_cons] at hlen ⊢
      omega
    have hpos : 0 < len - i := by
      simp only [List.length_cons] at hlen
      omega
    have hnext := ih (i + 1) (some c) (formatStep len acc (i, c)) hrest
      (by simp only [List.length_cons] at hlen; omega) (Or.inr ⟨by omega, c, rfl, hc⟩)
    simp only [List.enumFrom_cons, List.foldl_cons, hnext]
    unfold formatStep
    rw [commaGroupedFrom_cons]
    simp only [hfilter]
    rcases hleft with ⟨hi, hl⟩ | ⟨hi, l, hl, hld⟩
    · subst hi hl
      simp
    · subst hl
      by_cases h3 : (len - i) % 3 = 0
      · simp [hi, hld, h3, hpos]
      · simp [hi, hld, h3]

theorem foldl_formatStep_short (len : Nat) (rest : List Char) (i : Nat) (acc : List Char)
    (hlen : i + rest.length = len) (hshort : len ≤ 3) :
    (rest.enumFrom i).foldl (formatStep len) acc = acc ++ rest := by
  induction rest generalizing i acc with
  | nil => simp
  | cons c rest ih =>
    have hnext := ih (i + 1) (formatStep len acc (i, c))
      (by simp only [List.length_cons] at hlen; omega)
    have hstep : formatStep len acc (i, c) = acc ++ [c] := by
      unfold formatStep
      simp only [List.length_cons] at hlen
      rw [if_neg]
      intro hcond
      omega
    rw [hstep] at hnext
    simp only [List.enumFrom_cons, List.foldl_cons, hstep, hnext, List.append_assoc,
      List.singleton_append]

theorem foldl_formatStep_filter (len : Nat) (rest : List Char) (i : Nat) (acc : List Char)
    (hno : ∀ c ∈ rest, c ≠ ',') :
    ((rest.enumFrom i).foldl (formatStep len) acc).filter (fun c => c != ',') =
      acc.filter (fun c => c != ',') ++ rest := by
  induction rest generalizing i acc with
  | nil => simp
  | cons c rest ih =>
    have hc : c ≠ ',' := hno c (List.mem_cons_self _ _)
    have hnext := ih (i + 1) (formatStep len acc (i, c))
      (fun x hx => hno x (List.mem_cons_of_mem _ hx))
    simp only [List.enumFrom_cons, List.foldl_cons, hnext]
    unfold formatStep
    split <;> simp [List.filter_append, List.filter_cons, hc]

theorem formatNumber_nonneg (m : Nat) :
    (formatNumber (m : Int)).data = commaGrouped (sprintfD (m : Int)) := by
  have hall := sprintfD_ofNat_isDigit m
  have hgroup := foldl_formatStep_digits (sprintfD (m : Int)).length (sprintfD (m : Int)) 0 none []
    hall (by simp) (Or.inl ⟨rfl, rfl⟩)
  unfold formatNumber commaGrouped
  simp only []
  split
  · next hshort =>
    have h := foldl_formatStep_short (sprintfD (m : Int)).length (sprintfD (m : Int)) 0 []
      (by simp) hshort
    rw [h] at hgroup
    simpa using hgroup
  · simpa [List.enum] using hgroup

theorem formatNumber_delete_commas (n : Int) :
    (formatNumber n).data.filter (fun c => c != ',') = sprintfD n := by
  have hno := sprintfD_no_comma n
  unfold formatNumber
  simp only []
  split
  · exact List.filter_eq_self.2 (fun c hc => by simpa using hno c hc)
  · have h := foldl_formatStep_filter (sprintfD n).length (sprintfD n) 0 [] hno
    simpa [List.enum] using h

/-- C14.  For every integer `n`, deleting the commas from `formatNumber(n)` gives
the decimal representation of `n`, and for every `n ≥ 0` the commas stand exactly
where the specification puts them (`formatNumber(1234567)` is `1,234,567`).  For
negative `n` whose digit count is a multiple of three the code departs from it:
`formatNumber(-123)` is `-,123` and `formatNumber(-123456)` is `-,123,456`, a
comma standing right after the minus sign, a position with no digit on its left,
where the specification's placement gives `-123` and `-123,456`. -/
theorem formatNumber_comma_after_minus_sign :
    (∀ n : Int, (formatNumber n).data.filter (fun c => c != ',') = sprintfD n) ∧
    (∀ m : Nat, (formatNumber (m : Int)).data = commaGrouped (sprintfD (m : Int))) ∧
    formatNumber 1234567 = "1,234,567" ∧
    formatNumber (-1234) = "-1,234" ∧
    (formatNumber (-1234)).data = commaGrouped (sprintfD (-1234)) ∧
    formatNumber (-123) = "-,123" ∧
    commaGrouped (sprintfD (-123)) = "-123".data ∧
    formatNumber (-123456) = "-,123,456" ∧
    commaGrouped (sprintfD (-123456)) = "-123,456".data :=
  ⟨formatNumber_delete_commas, formatNumber_nonneg, by decide, by decide, by decide, by decide,
    by decide, by decide, by decide⟩

end Lucas
